import Mathlib

/-!
Shallow embedding of the static-mesh asset container of the `crpg`
repository (`src/asset.cc`, `src/include/asset.h`).

Files are modelled as lists of bytes (`List Nat`, each byte `< 256`);
32-bit fields are serialized little-endian exactly as the x86 memory
image the C++ code writes with `ostream::write`.  `float` fields
(bounding boxes, vertex attributes) are carried as their 32-bit bit
patterns, which is faithful because the code only ever copies them
verbatim.  Process exit (`std::exit(-1)`) is modelled as `none` /
`Option.none` results of the operations that can exit.
-/

namespace asset

/-- Little-endian serialization of a 32-bit value, as `ostream::write`
emits a `uint32_t` on x86. -/
def u32bytes (n : Nat) : List Nat :=
  [n % 256, n / 256 % 256, n / 65536 % 256, n / 16777216 % 256]

/-- Little-endian serialization of a 16-bit value. -/
def u16bytes (n : Nat) : List Nat :=
  [n % 256, n / 256 % 256]

/-- Reinterpret four bytes as a little-endian 32-bit value (missing
bytes read as zero, matching the zero-initialized buffers the C++
code `resize`s before a partial read). -/
def parseU32 (bs : List Nat) : Nat :=
  bs.getD 0 0 + 256 * bs.getD 1 0 + 65536 * bs.getD 2 0 + 16777216 * bs.getD 3 0

/-- Read the little-endian 32-bit value at byte offset `off`. -/
def parseU32At (bs : List Nat) (off : Nat) : Nat :=
  parseU32 (bs.drop off)

theorem length_u32bytes (n : Nat) : (u32bytes n).length = 4 := rfl

theorem parseU32_u32bytes_append (n : Nat) (rest : List Nat) (h : n < 4294967296) :
    parseU32 (u32bytes n ++ rest) = n := by
  simp only [u32bytes, parseU32, List.cons_append, List.nil_append, List.getD, List.get?,
    Option.getD_some]
  omega

theorem drop_four_u32bytes_append (n : Nat) (rest : List Nat) :
    (u32bytes n ++ rest).drop 4 = rest := rfl

/-! ## Data model (from `asset.h`) -/

/-- Bit patterns of a `glm::vec3` (three 32-bit floats, carried opaquely). -/
structure Vec3 where
  x : Nat
  y : Nat
  z : Nat
  deriving DecidableEq, Repr

/-- Bit patterns of a `glm::vec2`. -/
structure Vec2 where
  x : Nat
  y : Nat
  deriving DecidableEq, Repr

/-- `asset::BoundingBox`: axis-aligned box, `min` before `max` in memory. -/
structure BoundingBox where
  min : Vec3
  max : Vec3
  deriving DecidableEq, Repr

/-- `asset::StaticMeshData`: one mesh record, 64 bytes in the file. -/
structure StaticMeshData where
  bounds : BoundingBox
  id : Nat
  color : Nat := 0
  normal : Nat := 0
  roughness : Nat := 0
  occlusion : Nat := 0
  emission : Nat := 0
  vertexOffset : Nat
  vertexCount : Nat
  indexOffset : Nat
  indexCount : Nat
  deriving DecidableEq, Repr

/-- `asset::StaticVertexData`: one vertex record, 44 bytes in the file. -/
structure StaticVertexData where
  position : Vec3
  uv : Vec2
  normal : Vec3
  tangent : Vec3
  deriving DecidableEq, Repr

/-- All three coordinates fit in 32 bits. -/
def wfVec3 (v : Vec3) : Prop :=
  v.x < 4294967296 ∧ v.y < 4294967296 ∧ v.z < 4294967296

/-- Every field of a mesh record fits in 32 bits. -/
def wfStaticMeshData (m : StaticMeshData) : Prop :=
  wfVec3 m.bounds.min ∧ wfVec3 m.bounds.max ∧
  m.id < 4294967296 ∧ m.color < 4294967296 ∧ m.normal < 4294967296 ∧
  m.roughness < 4294967296 ∧ m.occlusion < 4294967296 ∧ m.emission < 4294967296 ∧
  m.vertexOffset < 4294967296 ∧ m.vertexCount < 4294967296 ∧
  m.indexOffset < 4294967296 ∧ m.indexCount < 4294967296

instance (v : Vec3) : Decidable (wfVec3 v) := by unfold wfVec3; infer_instance

instance (m : StaticMeshData) : Decidable (wfStaticMeshData m) := by
  unfold wfStaticMeshData; infer_instance

/-- Memory image of a `StaticMeshData` (field order as declared in `asset.h`,
no padding: 6 floats of the bounding box then 10 `uint32_t`s). -/
def serializeStaticMeshData (m : StaticMeshData) : List Nat :=
  u32bytes m.bounds.min.x ++ u32bytes m.bounds.min.y ++ u32bytes m.bounds.min.z ++
  u32bytes m.bounds.max.x ++ u32bytes m.bounds.max.y ++ u32bytes m.bounds.max.z ++
  u32bytes m.id ++ u32bytes m.color ++ u32bytes m.normal ++
  u32bytes m.roughness ++ u32bytes m.occlusion ++ u32bytes m.emission ++
  u32bytes m.vertexOffset ++ u32bytes m.vertexCount ++
  u32bytes m.indexOffset ++ u32bytes m.indexCount

/-- Memory image of a `StaticVertexData` (position, uv, normal, tangent). -/
def serializeStaticVertexData (v : StaticVertexData) : List Nat :=
  u32bytes v.position.x ++ u32bytes v.position.y ++ u32bytes v.position.z ++
  u32bytes v.uv.x ++ u32bytes v.uv.y ++
  u32bytes v.normal.x ++ u32bytes v.normal.y ++ u32bytes v.normal.z ++
  u32bytes v.tangent.x ++ u32bytes v.tangent.y ++ u32bytes v.tangent.z

theorem length_serializeStaticMeshData (m : StaticMeshData) :
    (serializeStaticMeshData m).length = 64 := by
  simp [serializeStaticMeshData, u32bytes]

theorem length_serializeStaticVertexData (v : StaticVertexData) :
    (serializeStaticVertexData v).length = 44 := by
  simp [serializeStaticVertexData, u32bytes]

/-- Reinterpretation of 64 bytes as a `StaticMeshData`, exactly the memory
image `ifstream::read` produces into the `_meshes` vector: sixteen
consecutive little-endian 32-bit fields. -/
def parseStaticMeshData (bs : List Nat) : StaticMeshData :=
  let b1 := bs.drop 4
  let b2 := b1.drop 4
  let b3 := b2.drop 4
  let b4 := b3.drop 4
  let b5 := b4.drop 4
  let b6 := b5.drop 4
  let b7 := b6.drop 4
  let b8 := b7.drop 4
  let b9 := b8.drop 4
  let b10 := b9.drop 4
  let b11 := b10.drop 4
  let b12 := b11.drop 4
  let b13 := b12.drop 4
  let b14 := b13.drop 4
  let b15 := b14.drop 4
  { bounds :=
      { min := ⟨parseU32 bs, parseU32 b1, parseU32 b2⟩
        max := ⟨parseU32 b3, parseU32 b4, parseU32 b5⟩ }
    id := parseU32 b6
    color := parseU32 b7
    normal := parseU32 b8
    roughness := parseU32 b9
    occlusion := parseU32 b10
    emission := parseU32 b11
    vertexOffset := parseU32 b12
    vertexCount := parseU32 b13
    indexOffset := parseU32 b14
    indexCount := parseU32 b15 }

/-- Read `count` consecutive 64-byte mesh records. -/
def parseMeshes : Nat → List Nat → List StaticMeshData
  | 0, _ => []
  | k + 1, bs => parseStaticMeshData bs :: parseMeshes k (bs.drop 64)

theorem length_parseMeshes (count : Nat) (bs : List Nat) :
    (parseMeshes count bs).length = count := by
  induction count generalizing bs with
  | zero => rfl
  | succ k ih => simp [parseMeshes, ih]

/-! ## Mesh file codec (`asset.cc` lines 36-70) -/

/-- ASCII bytes of `StaticMeshFileHeader::MAGIC_NUMBER`
(`"crpg:asset:static-mesh"`), padded with zero bytes to the 32-byte
`magicNumber` field.  `openStaticMeshFile` never inspects it. -/
def STATIC_MESH_MAGIC : List Nat :=
  [99, 114, 112, 103, 58, 97, 115, 115, 101, 116, 58,
   115, 116, 97, 116, 105, 99, 45, 109, 101, 115, 104,
   0, 0, 0, 0, 0, 0, 0, 0, 0, 0]

/-- `asset::StaticMeshFileHeader`: 32 magic bytes then three `uint32_t`
counts; 44 bytes on disk. -/
structure StaticMeshFileHeader where
  magicNumber : List Nat
  meshCount : Nat
  vertexCount : Nat
  indexCount : Nat
  deriving DecidableEq, Repr

/-- Memory image of a mesh-file header. -/
def serializeStaticMeshFileHeader (h : StaticMeshFileHeader) : List Nat :=
  h.magicNumber ++ u32bytes h.meshCount ++ u32bytes h.vertexCount ++ u32bytes h.indexCount

/-- Reinterpretation of the first 44 bytes of a mesh file as a header. -/
def parseStaticMeshFileHeader (bs : List Nat) : StaticMeshFileHeader :=
  let counts := bs.drop 32
  { magicNumber := bs.take 32
    meshCount := parseU32 counts
    vertexCount := parseU32 (counts.drop 4)
    indexCount := parseU32 ((counts.drop 4).drop 4) }

/-- `asset::writeStaticMeshFile`: header (counts taken from the inputs),
then the mesh records, vertex records and 16-bit indices, all verbatim. -/
def writeStaticMeshFile (meshes : List StaticMeshData) (verts : List StaticVertexData)
    (indices : List Nat) : List Nat :=
  serializeStaticMeshFileHeader
    { magicNumber := STATIC_MESH_MAGIC, meshCount := meshes.length,
      vertexCount := verts.length, indexCount := indices.length }
  ++ meshes.flatMap serializeStaticMeshData
  ++ verts.flatMap serializeStaticVertexData
  ++ indices.flatMap u16bytes

/-- `asset::StaticMeshFileHandleBuffer`: the parsed header and record
table plus the open stream (its byte contents and read position). -/
structure StaticMeshFileHandleBuffer where
  header : StaticMeshFileHeader
  meshes : List StaticMeshData
  streamData : List Nat
  streamPos : Nat
  deriving DecidableEq, Repr

/-- `asset::openStaticMeshFile`: reads the 44-byte header, then
`meshCount` records; leaves the stream open for later seeks.  No check of
the magic number is performed. -/
def openStaticMeshFile (file : List Nat) : StaticMeshFileHandleBuffer :=
  let hd := parseStaticMeshFileHeader (file.take 44)
  { header := hd
    meshes := parseMeshes hd.meshCount (file.drop 44)
    streamData := file
    streamPos := min (44 + 64 * hd.meshCount) file.length }

/-- The record-table scan of `getMeshData` (`asset.cc` 106-112): returns
the FIRST record whose `id` matches, via an early `return` in the loop. -/
def findFirstMesh : List StaticMeshData → Nat → Option StaticMeshData
  | [], _ => none
  | m :: ms, i => if m.id = i then some m else findFirstMesh ms i

/-- The record-table scan of `readMesh` (`asset.cc` 119-125): keeps
overwriting `idx` on every match, so the LAST matching record wins. -/
def findLastMesh (ms : List StaticMeshData) (i : Nat) : Option StaticMeshData :=
  ms.foldl (fun acc m => if m.id = i then some m else acc) none

/-- `StaticMeshFileHandleBuffer::getMeshData`: first match or null. -/
def StaticMeshFileHandleBuffer.getMeshData (h : StaticMeshFileHandleBuffer)
    (i : Nat) : Option StaticMeshData :=
  findFirstMesh h.meshes i

/-- `StaticMeshFileHandleBuffer::_vertexOffsetToBytes`:
`sizeof(StaticMeshFileHeader) + meshCount*sizeof(StaticMeshData) +
vertOffset*sizeof(StaticVertexData)` with sizes 44, 64 and 44. -/
def StaticMeshFileHandleBuffer.vertexOffsetToBytes (h : StaticMeshFileHandleBuffer)
    (vertOffset : Nat) : Nat :=
  44 + h.header.meshCount * 64 + vertOffset * 44

/-- `StaticMeshFileHandleBuffer::_indexOffsetToBytes`: as above plus the
whole vertex section (`_header.vertexCount * sizeof(StaticVertexData)`),
then `indexOffset * sizeof(uint16_t)`. -/
def StaticMeshFileHandleBuffer.indexOffsetToBytes (h : StaticMeshFileHandleBuffer)
    (indexOffset : Nat) : Nat :=
  44 + h.header.meshCount * 64 + h.header.vertexCount * 44 + indexOffset * 2

/-- `StaticMeshFileHandleBuffer::readMesh`, core data path: resolve the
last matching record; on a miss return `none` before touching the stream;
on a hit seek to the two byte offsets and read the requested runs.  The
result carries the vertex bytes, the index bytes and the stream position
after the second read. -/
def StaticMeshFileHandleBuffer.readMesh (h : StaticMeshFileHandleBuffer)
    (i : Nat) : Option (List Nat × List Nat × Nat) :=
  match findLastMesh h.meshes i with
  | none => none
  | some mesh =>
    let vertexByteOffs := h.vertexOffsetToBytes mesh.vertexOffset
    let indexByteOffs := h.indexOffsetToBytes mesh.indexOffset
    let vbytes := (h.streamData.drop vertexByteOffs).take (mesh.vertexCount * 44)
    let ibytes := (h.streamData.drop indexByteOffs).take (mesh.indexCount * 2)
    some (vbytes, ibytes, min (indexByteOffs + mesh.indexCount * 2) h.streamData.length)

/-- `readMesh` with the caller-supplied output buffers made explicit: on
failure the buffers and the handle are returned untouched; on success the
read bytes overwrite the front of each buffer and the stream position
advances. -/
def StaticMeshFileHandleBuffer.readMeshBuf (h : StaticMeshFileHandleBuffer)
    (i : Nat) (verts indices : List Nat) :
    Bool × List Nat × List Nat × StaticMeshFileHandleBuffer :=
  match h.readMesh i with
  | none => (false, verts, indices, h)
  | some (vbytes, ibytes, pos) =>
    (true, vbytes ++ verts.drop vbytes.length, ibytes ++ indices.drop ibytes.length,
     { h with streamPos := pos })

/-! ## Library file (`asset.cc` lines 203-278) -/

/-- ASCII bytes of `LibraryFileHeader::MAGIC_NUMBER`
(`"crpg:asset:library"`), WITHOUT terminator: 18 bytes. -/
def LIBRARY_MAGIC : List Nat :=
  [99, 114, 112, 103, 58, 97, 115, 115, 101, 116, 58,
   108, 105, 98, 114, 97, 114, 121]

/-- The magic constant as the C string `strncmp` walks: the 18 characters
followed by their null terminator. -/
def LIBRARY_MAGIC_CSTR : List Nat := LIBRARY_MAGIC ++ [0]

/-- The 32-byte `magicNumber` field as `strcpy` leaves it in a zeroed
header (written bytes past the terminator are unspecified in C++; the
writer model uses zeros, and the reader never compares them). -/
def LIBRARY_MAGIC_PADDED : List Nat :=
  LIBRARY_MAGIC ++ [0, 0, 0, 0, 0, 0, 0, 0, 0, 0, 0, 0, 0, 0]

/-- `strncmp(a, b, n) == 0`, byte for byte: stops early at the first
mismatch or at a null byte common to both strings.  Bytes past the end of
a list read as zero (the model's stand-in for memory the code never
reaches in the scenarios the theorems quantify over). -/
def strncmpZero : Nat → List Nat → List Nat → Bool
  | 0, _, _ => true
  | n + 1, a, b =>
    if a.headD 0 ≠ b.headD 0 then false
    else if a.headD 0 = 0 then true
    else strncmpZero n a.tail b.tail

/-- `asset::LibraryAssetRef`: asset id, type tag
(`AssetType::StaticMesh = 0`, `AssetType::Texture = 1`), byte offset of
the null-terminated path in the blob; 12 bytes on disk. -/
structure LibraryAssetRef where
  assetID : Nat
  assetType : Nat
  pathOffset : Nat
  deriving DecidableEq, Repr

/-- Memory image of a `LibraryAssetRef`. -/
def serializeLibraryAssetRef (r : LibraryAssetRef) : List Nat :=
  u32bytes r.assetID ++ u32bytes r.assetType ++ u32bytes r.pathOffset

/-- Reinterpretation of 12 bytes as a `LibraryAssetRef`. -/
def parseLibraryAssetRef (bs : List Nat) : LibraryAssetRef :=
  let b1 := bs.drop 4
  let b2 := b1.drop 4
  { assetID := parseU32 bs
    assetType := parseU32 b1
    pathOffset := parseU32 b2 }

/-- Read `count` consecutive 12-byte ref records. -/
def parseRefs : Nat → List Nat → List LibraryAssetRef
  | 0, _ => []
  | k + 1, bs => parseLibraryAssetRef bs :: parseRefs k (bs.drop 12)

/-- The in-memory part of `asset::LibraryFileHandleBuffer`: the ref table
and the path blob.  (The handle cache lives in `CacheState` below so the
library index stays a pure value.) -/
structure LibraryFileHandleBuffer where
  assetRefs : List LibraryAssetRef
  pathData : List Nat
  deriving DecidableEq, Repr

/-- `asset::emptyLibraryFileHandle`: zero refs, empty blob. -/
def emptyLibraryFileHandle : LibraryFileHandleBuffer :=
  { assetRefs := [], pathData := [] }

/-- `LibraryFileHandleBuffer::addMeshRef`: append a ref whose
`pathOffset` is the current blob size, then append the path bytes and a
null terminator to the blob. -/
def LibraryFileHandleBuffer.addMeshRef (h : LibraryFileHandleBuffer)
    (i : Nat) (path : List Nat) : LibraryFileHandleBuffer :=
  { assetRefs := h.assetRefs ++ [{ assetID := i, assetType := 0, pathOffset := h.pathData.length }]
    pathData := h.pathData ++ path ++ [0] }

/-- `LibraryFileHandleBuffer::write`: header (counts truncated to
`uint32_t` by the serialization), then the ref table, then the blob. -/
def LibraryFileHandleBuffer.write (h : LibraryFileHandleBuffer) : List Nat :=
  LIBRARY_MAGIC_PADDED ++ u32bytes h.assetRefs.length ++ u32bytes h.pathData.length
  ++ h.assetRefs.flatMap serializeLibraryAssetRef
  ++ h.pathData

/-- `asset::openLibraryFile`: read the 40-byte header (`magicNumber[0]`
pre-set to `0` so an empty read fails the check), `strncmp` the magic
against the constant — a mismatch is `std::exit(-1)`, modelled as `none` —
then read `assetRefCount` refs and `pathByteCount` blob bytes (zero-padded
when the file is short, matching the zero-initialized `resize`). -/
def openLibraryFile (file : List Nat) : Option LibraryFileHandleBuffer :=
  let magic := if file.isEmpty then [0] else file.take 32
  if strncmpZero 32 magic LIBRARY_MAGIC_CSTR then
    let counts := file.drop 32
    let refCount := parseU32 counts
    let byteCount := parseU32 (counts.drop 4)
    some { assetRefs := parseRefs refCount (file.drop 40)
           pathData := (file.drop (40 + 12 * refCount)).takeD byteCount 0 }
  else
    none

/-- The C string starting at byte `off` of the blob, as
`std::string(_pathData.data() + ref.pathOffset)` reads it. -/
def cstrAt (blob : List Nat) (off : Nat) : List Nat :=
  (blob.drop off).takeWhile (fun b => b ≠ 0)

/-- The ref-table scan of `_getStaticMeshFileHandle(MeshID)`
(`asset.cc` 295-299): every matching mesh-type ref overwrites `path`, so
the LAST match wins; no match leaves the empty string. -/
def resolveMeshPath (h : LibraryFileHandleBuffer) (i : Nat) : List Nat :=
  h.assetRefs.foldl
    (fun acc r => if r.assetID = i ∧ r.assetType = 0 then cstrAt h.pathData r.pathOffset else acc)
    []

/-! ## Library-backed cache (`asset.cc` lines 280-319) -/

/-- The `_staticMeshHandleCache` map plus an open counter (the counter is
the test double the spec's single-open property observes). -/
structure CacheState where
  staticMeshHandleCache : List (List Nat × StaticMeshFileHandleBuffer)
  openCount : Nat
  deriving DecidableEq, Repr

/-- A cache with no entries and no opens performed. -/
def initialCacheState : CacheState := { staticMeshHandleCache := [], openCount := 0 }

/-- Map lookup in the path-keyed handle cache. -/
def cacheLookup (cache : List (List Nat × StaticMeshFileHandleBuffer)) (path : List Nat) :
    Option StaticMeshFileHandleBuffer :=
  (cache.find? (fun e => e.1 = path)).map Prod.snd

/-- `LibraryFileHandleBuffer::_getStaticMeshFileHandle(std::string const&)`:
return the cached handle for `path` if present, otherwise open the file at
`path` (under filesystem `fs`), memoize it and count the open. -/
def getStaticMeshFileHandleByPath (fs : List Nat → List Nat) (st : CacheState)
    (path : List Nat) : StaticMeshFileHandleBuffer × CacheState :=
  match cacheLookup st.staticMeshHandleCache path with
  | some h => (h, st)
  | none =>
    let h := openStaticMeshFile (fs path)
    (h, { staticMeshHandleCache := st.staticMeshHandleCache ++ [(path, h)],
          openCount := st.openCount + 1 })

/-- `LibraryFileHandleBuffer::_getStaticMeshFileHandle(MeshID)`: resolve
the id through the ref table; an empty resolved path (no matching ref, or
a ref whose stored path is empty) is `std::exit(-1)`, modelled as `none`;
otherwise delegate to the path-keyed cache. -/
def getStaticMeshFileHandleByID (fs : List Nat → List Nat) (lib : LibraryFileHandleBuffer)
    (st : CacheState) (i : Nat) : Option (StaticMeshFileHandleBuffer × CacheState) :=
  let path := resolveMeshPath lib i
  if path = [] then none
  else some (getStaticMeshFileHandleByPath fs st path)

/-- `LibraryFileHandleBuffer::getMeshData`: resolve the handle through
the cache (fatal on a missing ref), then the handle's own lookup. -/
def libraryGetMeshData (fs : List Nat → List Nat) (lib : LibraryFileHandleBuffer)
    (st : CacheState) (i : Nat) : Option (Option StaticMeshData × CacheState) :=
  (getStaticMeshFileHandleByID fs lib st i).map
    (fun hs => (hs.1.getMeshData i, hs.2))

/-- `LibraryFileHandleBuffer::readMesh`: resolve the handle through the
cache (fatal on a missing ref), then the handle's `readMesh`; the `Bool`
is the success flag it returns. -/
def libraryReadMesh (fs : List Nat → List Nat) (lib : LibraryFileHandleBuffer)
    (st : CacheState) (i : Nat) : Option (Bool × CacheState) :=
  (getStaticMeshFileHandleByID fs lib st i).map
    (fun hs => ((hs.1.readMesh i).isSome, hs.2))

/-- A sequence of cache calls — `(true, i)` a `getMeshData(i)`,
`(false, i)` a `readMesh(i, ...)` — threading the cache state; `none` as
soon as one resolution is fatal. -/
def runCache (fs : List Nat → List Nat) (lib : LibraryFileHandleBuffer) :
    List (Bool × Nat) → CacheState → Option CacheState
  | [], st => some st
  | op :: ops, st =>
    match (if op.1 then (libraryGetMeshData fs lib st op.2).map Prod.snd
           else (libraryReadMesh fs lib st op.2).map Prod.snd) with
    | none => none
    | some st' => runCache fs lib ops st'

/-- The paths currently memoized by the cache. -/
def cacheKeys (st : CacheState) : List (List Nat) :=
  st.staticMeshHandleCache.map Prod.fst

/-! ## Helper lemmas -/

theorem parseU32_split (n : Nat) (h : n < 4294967296) :
    n % 256 + 256 * (n / 256 % 256) + 65536 * (n / 65536 % 256)
      + 16777216 * (n / 16777216 % 256) = n := by
  omega

theorem parseStaticMeshData_serialize (m : StaticMeshData) (rest : List Nat)
    (hm : wfStaticMeshData m) :
    parseStaticMeshData (serializeStaticMeshData m ++ rest) = m := by
  simp only [wfStaticMeshData, wfVec3] at hm
  obtain ⟨⟨h1, h2, h3⟩, ⟨h4, h5, h6⟩, h7, h8, h9, h10, h11, h12, h13, h14, h15, h16⟩ := hm
  simp only [serializeStaticMeshData, List.append_assoc, parseStaticMeshData,
    drop_four_u32bytes_append,
    parseU32_u32bytes_append _ _ h1, parseU32_u32bytes_append _ _ h2,
    parseU32_u32bytes_append _ _ h3, parseU32_u32bytes_append _ _ h4,
    parseU32_u32bytes_append _ _ h5, parseU32_u32bytes_append _ _ h6,
    parseU32_u32bytes_append _ _ h7, parseU32_u32bytes_append _ _ h8,
    parseU32_u32bytes_append _ _ h9, parseU32_u32bytes_append _ _ h10,
    parseU32_u32bytes_append _ _ h11, parseU32_u32bytes_append _ _ h12,
    parseU32_u32bytes_append _ _ h13, parseU32_u32bytes_append _ _ h14,
    parseU32_u32bytes_append _ _ h15, parseU32_u32bytes_append _ _ h16]

theorem drop64_serializeStaticMeshData (m : StaticMeshData) (rest : List Nat) :
    (serializeStaticMeshData m ++ rest).drop 64 = rest :=
  List.drop_left' (length_serializeStaticMeshData m)

theorem parseMeshes_flatMap (ms : List StaticMeshData) (rest : List Nat)
    (h : ∀ m ∈ ms, wfStaticMeshData m) :
    parseMeshes ms.length (ms.flatMap serializeStaticMeshData ++ rest) = ms := by
  induction ms with
  | nil => rfl
  | cons m ms ih =>
    simp only [List.flatMap_cons, List.length_cons, parseMeshes, List.append_assoc]
    rw [parseStaticMeshData_serialize m _ (h m (List.mem_cons_self m ms)),
      drop64_serializeStaticMeshData,
      ih (fun x hx => h x (List.mem_cons_of_mem m hx))]

theorem length_flatMap_uniform {α : Type} (f : α → List Nat) (k : Nat)
    (hf : ∀ x, (f x).length = k) (l : List α) :
    (l.flatMap f).length = l.length * k := by
  induction l with
  | nil => simp
  | cons x xs ih =>
    simp only [List.flatMap_cons, List.length_append, hf, ih, List.length_cons]
    ring

theorem drop_flatMap_uniform {α : Type} (f : α → List Nat) (k : Nat)
    (hf : ∀ x, (f x).length = k) (l : List α) (i : Nat) :
    (l.flatMap f).drop (i * k) = (l.drop i).flatMap f := by
  induction l generalizing i with
  | nil => simp
  | cons x xs ih =>
    cases i with
    | zero => simp
    | succ j =>
      have : (j + 1) * k = (f x).length + j * k := by rw [hf]; ring
      rw [List.flatMap_cons, this, List.drop_append, ih, List.drop_succ_cons]

theorem take_flatMap_uniform {α : Type} (f : α → List Nat) (k : Nat)
    (hf : ∀ x, (f x).length = k) (l : List α) (i : Nat) :
    (l.flatMap f).take (i * k) = (l.take i).flatMap f := by
  induction l generalizing i with
  | nil => simp
  | cons x xs ih =>
    cases i with
    | zero => simp
    | succ j =>
      have : (j + 1) * k = (f x).length + j * k := by rw [hf]; ring
      rw [List.flatMap_cons, this, List.take_append, ih, List.take_succ_cons,
        List.flatMap_cons]

theorem parseU32_u32bytes (n : Nat) (h : n < 4294967296) :
    parseU32 (u32bytes n) = n := by
  simp only [u32bytes, parseU32, List.getD, List.get?, Option.getD_some]
  omega

theorem parseStaticMeshFileHeader_parts (magic : List Nat) (a b c : Nat)
    (hm : magic.length = 32)
    (ha : a < 4294967296) (hb : b < 4294967296) (hc : c < 4294967296) :
    parseStaticMeshFileHeader (magic ++ u32bytes a ++ u32bytes b ++ u32bytes c)
      = ⟨magic, a, b, c⟩ := by
  simp only [parseStaticMeshFileHeader, List.append_assoc, List.take_left' hm,
    List.drop_left' hm, drop_four_u32bytes_append,
    parseU32_u32bytes_append _ _ ha, parseU32_u32bytes_append _ _ hb,
    parseU32_u32bytes _ hc]

theorem writeStaticMeshFile_parts (meshes : List StaticMeshData)
    (verts : List StaticVertexData) (indices : List Nat) :
    writeStaticMeshFile meshes verts indices =
      (STATIC_MESH_MAGIC ++ u32bytes meshes.length ++ u32bytes verts.length
        ++ u32bytes indices.length)
      ++ (meshes.flatMap serializeStaticMeshData
        ++ (verts.flatMap serializeStaticVertexData ++ indices.flatMap u16bytes)) := by
  simp [writeStaticMeshFile, serializeStaticMeshFileHeader, List.append_assoc]

theorem length_meshHeaderBytes (a b c : Nat) :
    (STATIC_MESH_MAGIC ++ u32bytes a ++ u32bytes b ++ u32bytes c).length = 44 := by
  simp [STATIC_MESH_MAGIC, u32bytes]

/-- Reopening a freshly written mesh file parses back exactly the header
counts and record table that were written. -/
theorem openStaticMeshFile_writeStaticMeshFile (meshes : List StaticMeshData)
    (verts : List StaticVertexData) (indices : List Nat)
    (hM : meshes.length < 4294967296) (hV : verts.length < 4294967296)
    (hI : indices.length < 4294967296) (hwf : ∀ m ∈ meshes, wfStaticMeshData m) :
    openStaticMeshFile (writeStaticMeshFile meshes verts indices) =
      { header := ⟨STATIC_MESH_MAGIC, meshes.length, verts.length, indices.length⟩
        meshes := meshes
        streamData := writeStaticMeshFile meshes verts indices
        streamPos := min (44 + 64 * meshes.length)
          (writeStaticMeshFile meshes verts indices).length } := by
  have hP : parseStaticMeshFileHeader ((writeStaticMeshFile meshes verts indices).take 44) =
      ⟨STATIC_MESH_MAGIC, meshes.length, verts.length, indices.length⟩ := by
    rw [writeStaticMeshFile_parts, List.take_left' (length_meshHeaderBytes _ _ _)]
    exact parseStaticMeshFileHeader_parts _ _ _ _ rfl hM hV hI
  simp only [openStaticMeshFile, hP, StaticMeshFileHandleBuffer.mk.injEq, true_and, and_true]
  rw [writeStaticMeshFile_parts, List.drop_left' (length_meshHeaderBytes _ _ _)]
  exact parseMeshes_flatMap meshes _ hwf

/-- Dropping the header, record table and `vo` vertex records from a
written file leaves the remaining vertex records and the index pool. -/
theorem writeStaticMeshFile_drop_vertex (meshes : List StaticMeshData)
    (verts : List StaticVertexData) (indices : List Nat) (vo : Nat)
    (hvo : vo ≤ verts.length) :
    (writeStaticMeshFile meshes verts indices).drop (44 + meshes.length * 64 + vo * 44) =
      (verts.drop vo).flatMap serializeStaticVertexData ++ indices.flatMap u16bytes := by
  have hfile : writeStaticMeshFile meshes verts indices =
      ((STATIC_MESH_MAGIC ++ u32bytes meshes.length ++ u32bytes verts.length
        ++ u32bytes indices.length) ++ meshes.flatMap serializeStaticMeshData)
      ++ (verts.flatMap serializeStaticVertexData ++ indices.flatMap u16bytes) := by
    simp [writeStaticMeshFile, serializeStaticMeshFileHeader, List.append_assoc]
  have hlen : ((STATIC_MESH_MAGIC ++ u32bytes meshes.length ++ u32bytes verts.length
      ++ u32bytes indices.length) ++ meshes.flatMap serializeStaticMeshData).length
      = 44 + meshes.length * 64 := by
    rw [List.length_append, length_meshHeaderBytes,
      length_flatMap_uniform serializeStaticMeshData 64 length_serializeStaticMeshData]
  have hsplit : 44 + meshes.length * 64 + vo * 44 =
      ((STATIC_MESH_MAGIC ++ u32bytes meshes.length ++ u32bytes verts.length
        ++ u32bytes indices.length) ++ meshes.flatMap serializeStaticMeshData).length
      + vo * 44 := by rw [hlen]
  rw [hfile, hsplit, List.drop_append, List.drop_append_eq_append_drop,
    drop_flatMap_uniform serializeStaticVertexData 44 length_serializeStaticVertexData,
    length_flatMap_uniform serializeStaticVertexData 44 length_serializeStaticVertexData,
    Nat.sub_eq_zero_of_le (Nat.mul_le_mul_right 44 hvo), List.drop_zero]

/-- Dropping everything up through `io` indices from a written file
leaves the remaining serialized indices. -/
theorem writeStaticMeshFile_drop_index (meshes : List StaticMeshData)
    (verts : List StaticVertexData) (indices : List Nat) (io : Nat) :
    (writeStaticMeshFile meshes verts indices).drop
        (44 + meshes.length * 64 + verts.length * 44 + io * 2) =
      (indices.drop io).flatMap u16bytes := by
  have hfile : writeStaticMeshFile meshes verts indices =
      ((STATIC_MESH_MAGIC ++ u32bytes meshes.length ++ u32bytes verts.length
        ++ u32bytes indices.length) ++ meshes.flatMap serializeStaticMeshData
        ++ verts.flatMap serializeStaticVertexData)
      ++ indices.flatMap u16bytes := by
    simp [writeStaticMeshFile, serializeStaticMeshFileHeader, List.append_assoc]
  have hlen : ((STATIC_MESH_MAGIC ++ u32bytes meshes.length ++ u32bytes verts.length
      ++ u32bytes indices.length) ++ meshes.flatMap serializeStaticMeshData
      ++ verts.flatMap serializeStaticVertexData).length
      = 44 + meshes.length * 64 + verts.length * 44 := by
    rw [List.length_append, List.length_append, length_meshHeaderBytes,
      length_flatMap_uniform serializeStaticMeshData 64 length_serializeStaticMeshData,
      length_flatMap_uniform serializeStaticVertexData 44 length_serializeStaticVertexData]
  have hsplit : 44 + meshes.length * 64 + verts.length * 44 + io * 2 =
      ((STATIC_MESH_MAGIC ++ u32bytes meshes.length ++ u32bytes verts.length
        ++ u32bytes indices.length) ++ meshes.flatMap serializeStaticMeshData
        ++ verts.flatMap serializeStaticVertexData).length + io * 2 := by rw [hlen]
  rw [hfile, hsplit, List.drop_append,
    drop_flatMap_uniform u16bytes 2 (fun _ => rfl)]

/-- Taking `vc` vertex records' worth of bytes off the remaining vertex
pool stays inside the pool and equals the serialized sub-range. -/
theorem take_vertex_run (verts : List StaticVertexData) (indices : List Nat)
    (vo vc : Nat) (h : vo + vc ≤ verts.length) :
    ((verts.drop vo).flatMap serializeStaticVertexData ++ indices.flatMap u16bytes).take
        (vc * 44) =
      ((verts.drop vo).take vc).flatMap serializeStaticVertexData := by
  have hlen : vc * 44 ≤ ((verts.drop vo).flatMap serializeStaticVertexData).length := by
    rw [length_flatMap_uniform serializeStaticVertexData 44 length_serializeStaticVertexData,
      List.length_drop]
    exact Nat.mul_le_mul_right 44 (by omega)
  rw [List.take_append_eq_append_take, Nat.sub_eq_zero_of_le hlen, List.take_zero,
    List.append_nil, take_flatMap_uniform serializeStaticVertexData 44
      length_serializeStaticVertexData]

theorem foldl_findLast_no_match (ms : List StaticMeshData) (i : Nat)
    (h : ∀ m ∈ ms, m.id ≠ i) (acc : Option StaticMeshData) :
    ms.foldl (fun acc m => if m.id = i then some m else acc) acc = acc := by
  induction ms generalizing acc with
  | nil => rfl
  | cons x xs ih =>
    rw [List.foldl_cons, if_neg (h x (List.mem_cons_self x xs)),
      ih (fun m hm => h m (List.mem_cons_of_mem x hm))]

theorem findLastMesh_eq_none (ms : List StaticMeshData) (i : Nat)
    (h : ∀ m ∈ ms, m.id ≠ i) : findLastMesh ms i = none :=
  foldl_findLast_no_match ms i h none

theorem findFirstMesh_eq_none (ms : List StaticMeshData) (i : Nat)
    (h : ∀ m ∈ ms, m.id ≠ i) : findFirstMesh ms i = none := by
  induction ms with
  | nil => rfl
  | cons x xs ih =>
    rw [findFirstMesh, if_neg (h x (List.mem_cons_self x xs)),
      ih (fun m hm => h m (List.mem_cons_of_mem x hm))]

theorem findLastMesh_nodup (ms : List StaticMeshData) (m : StaticMeshData)
    (hm : m ∈ ms) (hnd : (ms.map StaticMeshData.id).Nodup) :
    findLastMesh ms m.id = some m := by
  induction ms with
  | nil => cases hm
  | cons x xs ih =>
    rw [List.map_cons, List.nodup_cons] at hnd
    rcases List.mem_cons.mp hm with rfl | hmem
    · rw [findLastMesh, List.foldl_cons, if_pos rfl]
      exact foldl_findLast_no_match xs m.id
        (fun y hy hxy => hnd.1 (hxy ▸ List.mem_map.mpr ⟨y, hy, rfl⟩)) (some m)
    · have hne : x.id ≠ m.id := fun hxy =>
        hnd.1 (hxy ▸ List.mem_map.mpr ⟨m, hmem, rfl⟩)
      rw [findLastMesh, List.foldl_cons, if_neg hne]
      exact ih hmem hnd.2

theorem foldl_findLast_eq_reverse_find (ms : List StaticMeshData) (i : Nat)
    (acc : Option StaticMeshData) :
    ms.foldl (fun acc m => if m.id = i then some m else acc) acc =
      (ms.reverse.find? (fun m => decide (m.id = i))).or acc := by
  induction ms generalizing acc with
  | nil => rfl
  | cons x xs ih =>
    rw [List.foldl_cons, ih, List.reverse_cons, List.find?_append, Option.or_assoc]
    by_cases hx : x.id = i
    · simp [List.find?_cons, hx]
    · simp [List.find?_cons, hx]

theorem findLastMesh_eq_reverse_find (ms : List StaticMeshData) (i : Nat) :
    findLastMesh ms i = ms.reverse.find? (fun m => decide (m.id = i)) := by
  rw [findLastMesh, foldl_findLast_eq_reverse_find, Option.or_none]

theorem findFirstMesh_eq_find (ms : List StaticMeshData) (i : Nat) :
    findFirstMesh ms i = ms.find? (fun m => decide (m.id = i)) := by
  induction ms with
  | nil => rfl
  | cons x xs ih =>
    by_cases hx : x.id = i
    · simp [findFirstMesh, hx, List.find?_cons]
    · simp [findFirstMesh, hx, List.find?_cons, ih]

/-- `readMesh` on a freshly written file returns exactly the serialized
sub-ranges written for the (unique) record with the requested id. -/
theorem readMesh_writeStaticMeshFile (meshes : List StaticMeshData)
    (verts : List StaticVertexData) (indices : List Nat)
    (hM : meshes.length < 4294967296) (hV : verts.length < 4294967296)
    (hI : indices.length < 4294967296) (hwf : ∀ m ∈ meshes, wfStaticMeshData m)
    (hnd : (meshes.map StaticMeshData.id).Nodup)
    (m : StaticMeshData) (hm : m ∈ meshes)
    (hvr : m.vertexOffset + m.vertexCount ≤ verts.length)
    (hir : m.indexOffset + m.indexCount ≤ indices.length) :
    (openStaticMeshFile (writeStaticMeshFile meshes verts indices)).readMesh m.id =
      some (((verts.drop m.vertexOffset).take m.vertexCount).flatMap serializeStaticVertexData,
        ((indices.drop m.indexOffset).take m.indexCount).flatMap u16bytes,
        44 + meshes.length * 64 + verts.length * 44 + m.indexOffset * 2
          + m.indexCount * 2) := by
  rw [openStaticMeshFile_writeStaticMeshFile meshes verts indices hM hV hI hwf]
  have hlenfile : (writeStaticMeshFile meshes verts indices).length =
      44 + meshes.length * 64 + verts.length * 44 + indices.length * 2 := by
    have h32 : STATIC_MESH_MAGIC.length = 32 := rfl
    rw [writeStaticMeshFile_parts]
    simp only [List.length_append, h32, length_u32bytes,
      length_flatMap_uniform serializeStaticMeshData 64 length_serializeStaticMeshData,
      length_flatMap_uniform serializeStaticVertexData 44 length_serializeStaticVertexData,
      length_flatMap_uniform u16bytes 2 (fun _ => rfl)]
    omega
  simp only [StaticMeshFileHandleBuffer.readMesh,
    StaticMeshFileHandleBuffer.vertexOffsetToBytes,
    StaticMeshFileHandleBuffer.indexOffsetToBytes,
    findLastMesh_nodup meshes m hm hnd]
  rw [writeStaticMeshFile_drop_vertex meshes verts indices m.vertexOffset (by omega),
    take_vertex_run verts indices m.vertexOffset m.vertexCount hvr,
    writeStaticMeshFile_drop_index meshes verts indices m.indexOffset,
    take_flatMap_uniform u16bytes 2 (fun _ => rfl)]
  simp only [Option.some.injEq, Prod.mk.injEq]
  refine ⟨trivial, trivial, ?_⟩
  rw [hlenfile]
  omega

theorem foldl_resolve_no_match (pd : List Nat) (i : Nat) (refs : List LibraryAssetRef)
    (h : ∀ r ∈ refs, ¬(r.assetID = i ∧ r.assetType = 0)) (acc : List Nat) :
    refs.foldl
        (fun acc r => if r.assetID = i ∧ r.assetType = 0 then cstrAt pd r.pathOffset else acc)
        acc = acc := by
  induction refs generalizing acc with
  | nil => rfl
  | cons x xs ih =>
    rw [List.foldl_cons, if_neg (h x (List.mem_cons_self x xs)),
      ih (fun r hr => h r (List.mem_cons_of_mem x hr))]

theorem resolveMeshPath_no_match (lib : LibraryFileHandleBuffer) (i : Nat)
    (h : ∀ r ∈ lib.assetRefs, ¬(r.assetID = i ∧ r.assetType = 0)) :
    resolveMeshPath lib i = [] :=
  foldl_resolve_no_match lib.pathData i lib.assetRefs h []

theorem foldl_resolve_eq_reverse_find (pd : List Nat) (i : Nat)
    (refs : List LibraryAssetRef) (acc : List Nat) :
    refs.foldl
        (fun acc r => if r.assetID = i ∧ r.assetType = 0 then cstrAt pd r.pathOffset else acc)
        acc =
      match refs.reverse.find? (fun r => decide (r.assetID = i ∧ r.assetType = 0)) with
      | some r => cstrAt pd r.pathOffset
      | none => acc := by
  induction refs generalizing acc with
  | nil => rfl
  | cons x xs ih =>
    rw [List.foldl_cons, ih, List.reverse_cons, List.find?_append]
    cases hfind : xs.reverse.find? (fun r => decide (r.assetID = i ∧ r.assetType = 0)) with
    | none =>
      by_cases hx : x.assetID = i ∧ x.assetType = 0
      · simp [List.find?_cons, hx]
      · simp [List.find?_cons, hx]
    | some r => simp

theorem resolveMeshPath_eq_reverse_find (lib : LibraryFileHandleBuffer) (i : Nat) :
    resolveMeshPath lib i =
      match lib.assetRefs.reverse.find? (fun r => decide (r.assetID = i ∧ r.assetType = 0)) with
      | some r => cstrAt lib.pathData r.pathOffset
      | none => [] :=
  foldl_resolve_eq_reverse_find lib.pathData i lib.assetRefs []

/-! ## Concrete sample data (the spec's own scenario: mesh A id=7 with
3 vertices / 3 indices at offset 0, mesh B id=9 with 4 vertices at
offset 3 and 6 indices at offset 3) -/

def exMeshA : StaticMeshData :=
  { bounds := ⟨⟨1, 2, 3⟩, ⟨4, 5, 6⟩⟩, id := 7, vertexOffset := 0, vertexCount := 3,
    indexOffset := 0, indexCount := 3 }

def exMeshB : StaticMeshData :=
  { bounds := ⟨⟨21, 22, 23⟩, ⟨24, 25, 26⟩⟩, id := 9, vertexOffset := 3, vertexCount := 4,
    indexOffset := 3, indexCount := 6 }

/-- A second record with the same id 7 as `exMeshA` but different fields. -/
def exMeshDup : StaticMeshData :=
  { bounds := ⟨⟨1, 2, 3⟩, ⟨4, 5, 6⟩⟩, id := 7, vertexOffset := 0, vertexCount := 99,
    indexOffset := 0, indexCount := 0 }

def exVertex (k : Nat) : StaticVertexData :=
  ⟨⟨k, 100 + k, 200 + k⟩, ⟨300 + k, 400 + k⟩, ⟨500 + k, 600 + k, 700 + k⟩,
   ⟨800 + k, 900 + k, 1000 + k⟩⟩

def exMeshes : List StaticMeshData := [exMeshA, exMeshB]

def exVerts : List StaticVertexData := (List.range 7).map exVertex

def exIndices : List Nat := [10, 11, 12, 13, 14, 15, 16, 17, 18]

/-! ## Claims -/

/-- C1: writing any mesh file (records well formed as 32-bit data, ids
unique, ranges inside the pools) and reopening it yields identical header
counts, an identical record table field for field, and `readMesh` for any
written mesh id returns vertex and index bytes identical to the serialized
sub-ranges written for that record. -/
theorem c1_mesh_file_roundtrip (meshes : List StaticMeshData)
    (verts : List StaticVertexData) (indices : List Nat)
    (hM : meshes.length < 4294967296) (hV : verts.length < 4294967296)
    (hI : indices.length < 4294967296)
    (hwf : ∀ m ∈ meshes, wfStaticMeshData m)
    (hnd : (meshes.map StaticMeshData.id).Nodup)
    (hrange : ∀ m ∈ meshes, m.vertexOffset + m.vertexCount ≤ verts.length ∧
      m.indexOffset + m.indexCount ≤ indices.length) :
    (openStaticMeshFile (writeStaticMeshFile meshes verts indices)).header.meshCount
        = meshes.length ∧
    (openStaticMeshFile (writeStaticMeshFile meshes verts indices)).header.vertexCount
        = verts.length ∧
    (openStaticMeshFile (writeStaticMeshFile meshes verts indices)).header.indexCount
        = indices.length ∧
    (openStaticMeshFile (writeStaticMeshFile meshes verts indices)).meshes = meshes ∧
    ∀ m ∈ meshes, ∃ p,
      (openStaticMeshFile (writeStaticMeshFile meshes verts indices)).readMesh m.id =
        some (((verts.drop m.vertexOffset).take m.vertexCount).flatMap
            serializeStaticVertexData,
          ((indices.drop m.indexOffset).take m.indexCount).flatMap u16bytes, p) := by
  have hopen := openStaticMeshFile_writeStaticMeshFile meshes verts indices hM hV hI hwf
  refine ⟨by rw [hopen], by rw [hopen], by rw [hopen], by rw [hopen], ?_⟩
  intro m hm
  exact ⟨_, readMesh_writeStaticMeshFile meshes verts indices hM hV hI hwf hnd m hm
    (hrange m hm).1 (hrange m hm).2⟩

set_option maxRecDepth 100000 in
/-- C1 witness: the round trip evaluated on the spec's concrete two-mesh
scenario. -/
theorem c1_mesh_file_roundtrip_witness :
    (exMeshes.length < 4294967296 ∧ exVerts.length < 4294967296 ∧
      exIndices.length < 4294967296 ∧ (∀ m ∈ exMeshes, wfStaticMeshData m) ∧
      (exMeshes.map StaticMeshData.id).Nodup ∧
      ∀ m ∈ exMeshes, m.vertexOffset + m.vertexCount ≤ exVerts.length ∧
        m.indexOffset + m.indexCount ≤ exIndices.length) ∧
    ((openStaticMeshFile (writeStaticMeshFile exMeshes exVerts exIndices)).header.meshCount
        = exMeshes.length ∧
      (openStaticMeshFile (writeStaticMeshFile exMeshes exVerts exIndices)).header.vertexCount
        = exVerts.length ∧
      (openStaticMeshFile (writeStaticMeshFile exMeshes exVerts exIndices)).header.indexCount
        = exIndices.length ∧
      (openStaticMeshFile (writeStaticMeshFile exMeshes exVerts exIndices)).meshes = exMeshes ∧
      ∀ m ∈ exMeshes, ∃ p,
        (openStaticMeshFile (writeStaticMeshFile exMeshes exVerts exIndices)).readMesh m.id =
          some (((exVerts.drop m.vertexOffset).take m.vertexCount).flatMap
              serializeStaticVertexData,
            ((exIndices.drop m.indexOffset).take m.indexCount).flatMap u16bytes, p)) :=
  ⟨⟨by decide, by decide, by decide, by decide, by decide, by decide⟩,
    c1_mesh_file_roundtrip exMeshes exVerts exIndices (by decide) (by decide) (by decide)
      (by decide) (by decide) (by decide)⟩

/-- C2: when `readMesh` succeeds it reads the vertex run from byte offset
`sizeof(header) + meshCount*sizeof(MeshRecord) + vertexOffset*sizeof(VertexRecord)`
(44, 64 and 44 bytes respectively) and the index run from
`sizeof(header) + meshCount*sizeof(MeshRecord) + totalVertexCount*sizeof(VertexRecord)
+ indexOffset*sizeof(uint16)`, and (when the file covers the runs) reads
exactly `vertexCount` 44-byte records and `indexCount` 2-byte values. -/
theorem c2_readMesh_offsets (h : StaticMeshFileHandleBuffer) (i : Nat)
    (m : StaticMeshData) (hfind : findLastMesh h.meshes i = some m)
    (hv : 44 + h.header.meshCount * 64 + m.vertexOffset * 44 + m.vertexCount * 44
      ≤ h.streamData.length)
    (hx : 44 + h.header.meshCount * 64 + h.header.vertexCount * 44 + m.indexOffset * 2
      + m.indexCount * 2 ≤ h.streamData.length) :
    h.readMesh i = some
      ((h.streamData.drop (44 + h.header.meshCount * 64 + m.vertexOffset * 44)).take
          (m.vertexCount * 44),
        (h.streamData.drop (44 + h.header.meshCount * 64 + h.header.vertexCount * 44
          + m.indexOffset * 2)).take (m.indexCount * 2),
        44 + h.header.meshCount * 64 + h.header.vertexCount * 44 + m.indexOffset * 2
          + m.indexCount * 2) ∧
    ((h.streamData.drop (44 + h.header.meshCount * 64 + m.vertexOffset * 44)).take
      (m.vertexCount * 44)).length = m.vertexCount * 44 ∧
    ((h.streamData.drop (44 + h.header.meshCount * 64 + h.header.vertexCount * 44
      + m.indexOffset * 2)).take (m.indexCount * 2)).length = m.indexCount * 2 := by
  refine ⟨?_, ?_, ?_⟩
  · simp only [StaticMeshFileHandleBuffer.readMesh, hfind,
      StaticMeshFileHandleBuffer.vertexOffsetToBytes,
      StaticMeshFileHandleBuffer.indexOffsetToBytes, Option.some.injEq, Prod.mk.injEq]
    exact ⟨trivial, trivial, by omega⟩
  · simp only [List.length_take, List.length_drop]
    omega
  · simp only [List.length_take, List.length_drop]
    omega

set_option maxRecDepth 100000 in
/-- C2 witness: the offsets and read lengths evaluated for mesh id 9 of
the concrete two-mesh file. -/
theorem c2_readMesh_offsets_witness :
    (findLastMesh (openStaticMeshFile (writeStaticMeshFile exMeshes exVerts exIndices)).meshes 9
        = some exMeshB ∧
      44 + (openStaticMeshFile (writeStaticMeshFile exMeshes exVerts exIndices)).header.meshCount * 64
          + exMeshB.vertexOffset * 44 + exMeshB.vertexCount * 44
        ≤ (openStaticMeshFile (writeStaticMeshFile exMeshes exVerts exIndices)).streamData.length ∧
      44 + (openStaticMeshFile (writeStaticMeshFile exMeshes exVerts exIndices)).header.meshCount * 64
          + (openStaticMeshFile (writeStaticMeshFile exMeshes exVerts exIndices)).header.vertexCount * 44
          + exMeshB.indexOffset * 2 + exMeshB.indexCount * 2
        ≤ (openStaticMeshFile (writeStaticMeshFile exMeshes exVerts exIndices)).streamData.length) ∧
    ((openStaticMeshFile (writeStaticMeshFile exMeshes exVerts exIndices)).readMesh 9 = some
      (((openStaticMeshFile (writeStaticMeshFile exMeshes exVerts exIndices)).streamData.drop
          (44 + (openStaticMeshFile (writeStaticMeshFile exMeshes exVerts exIndices)).header.meshCount * 64
            + exMeshB.vertexOffset * 44)).take (exMeshB.vertexCount * 44),
        ((openStaticMeshFile (writeStaticMeshFile exMeshes exVerts exIndices)).streamData.drop
          (44 + (openStaticMeshFile (writeStaticMeshFile exMeshes exVerts exIndices)).header.meshCount * 64
            + (openStaticMeshFile (writeStaticMeshFile exMeshes exVerts exIndices)).header.vertexCount * 44
            + exMeshB.indexOffset * 2)).take (exMeshB.indexCount * 2),
        44 + (openStaticMeshFile (writeStaticMeshFile exMeshes exVerts exIndices)).header.meshCount * 64
          + (openStaticMeshFile (writeStaticMeshFile exMeshes exVerts exIndices)).header.vertexCount * 44
          + exMeshB.indexOffset * 2 + exMeshB.indexCount * 2) ∧
      (((openStaticMeshFile (writeStaticMeshFile exMeshes exVerts exIndices)).streamData.drop
        (44 + (openStaticMeshFile (writeStaticMeshFile exMeshes exVerts exIndices)).header.meshCount * 64
          + exMeshB.vertexOffset * 44)).take (exMeshB.vertexCount * 44)).length
        = exMeshB.vertexCount * 44 ∧
      (((openStaticMeshFile (writeStaticMeshFile exMeshes exVerts exIndices)).streamData.drop
        (44 + (openStaticMeshFile (writeStaticMeshFile exMeshes exVerts exIndices)).header.meshCount * 64
          + (openStaticMeshFile (writeStaticMeshFile exMeshes exVerts exIndices)).header.vertexCount * 44
          + exMeshB.indexOffset * 2)).take (exMeshB.indexCount * 2)).length
        = exMeshB.indexCount * 2) :=
  ⟨⟨by decide, by decide, by decide⟩,
    c2_readMesh_offsets (openStaticMeshFile (writeStaticMeshFile exMeshes exVerts exIndices))
      9 exMeshB (by decide) (by decide) (by decide)⟩

/-- C3 counterexample: a mesh file holding two records with the same id 7;
`getMeshData` on the reopened handle returns the FIRST matching record,
which differs from the last one, refuting that every lookup returns the
last match. -/
theorem c3_counterexample :
    (openStaticMeshFile (writeStaticMeshFile [exMeshA, exMeshDup] [] [])).meshes
        = [exMeshA, exMeshDup] ∧
    exMeshA.id = 7 ∧ exMeshDup.id = 7 ∧ exMeshA ≠ exMeshDup ∧
    (openStaticMeshFile (writeStaticMeshFile [exMeshA, exMeshDup] [] [])).getMeshData 7
        = some exMeshA ∧
    findLastMesh (openStaticMeshFile (writeStaticMeshFile [exMeshA, exMeshDup] [] [])).meshes 7
        = some exMeshDup := by
  decide

/-- C3 (amended): with duplicate ids the `readMesh` record resolution and
the library ref-table resolution return the LAST match in table order,
but `getMeshData` returns the FIRST match. -/
theorem c3_lookup_order (h : StaticMeshFileHandleBuffer)
    (lib : LibraryFileHandleBuffer) (i : Nat) :
    h.getMeshData i = h.meshes.find? (fun m => decide (m.id = i)) ∧
    findLastMesh h.meshes i = h.meshes.reverse.find? (fun m => decide (m.id = i)) ∧
    resolveMeshPath lib i =
      (match lib.assetRefs.reverse.find? (fun r => decide (r.assetID = i ∧ r.assetType = 0)) with
        | some r => cstrAt lib.pathData r.pathOffset
        | none => []) :=
  ⟨findFirstMesh_eq_find h.meshes i, findLastMesh_eq_reverse_find h.meshes i,
    resolveMeshPath_eq_reverse_find lib i⟩

/-- A concrete filesystem for witnesses: every path holds an empty mesh
file (no records, no vertices, no indices). -/
def exFs : List Nat → List Nat := fun _ => writeStaticMeshFile [] [] []

/-- A concrete library with one mesh ref: id 5 at path "a" (byte 97). -/
def exLib : LibraryFileHandleBuffer := emptyLibraryFileHandle.addMeshRef 5 [97]

/-- A library where an empty-path ref for id 5 is shadowed by a later
ref with the same id and path "a". -/
def exLibShadow : LibraryFileHandleBuffer :=
  (emptyLibraryFileHandle.addMeshRef 5 []).addMeshRef 5 [97]

/-- C7: an id absent from a mesh file's record table is a normal negative
result of the handle (`getMeshData` null, `readMesh` false), whereas an id
with no matching mesh-type ref in the library ref table makes the
library-backed operations exit the process (the `none` outcome). -/
theorem c7_not_found_asymmetry (h : StaticMeshFileHandleBuffer) (i : Nat)
    (habs : ∀ m ∈ h.meshes, m.id ≠ i)
    (fs : List Nat → List Nat) (lib : LibraryFileHandleBuffer) (st : CacheState)
    (j : Nat) (habs2 : ∀ r ∈ lib.assetRefs, ¬(r.assetID = j ∧ r.assetType = 0)) :
    h.getMeshData i = none ∧ h.readMesh i = none ∧
    libraryGetMeshData fs lib st j = none ∧ libraryReadMesh fs lib st j = none := by
  refine ⟨findFirstMesh_eq_none h.meshes i habs, ?_, ?_, ?_⟩
  · simp only [StaticMeshFileHandleBuffer.readMesh, findLastMesh_eq_none h.meshes i habs]
  · simp [libraryGetMeshData, getStaticMeshFileHandleByID,
      resolveMeshPath_no_match lib j habs2]
  · simp [libraryReadMesh, getStaticMeshFileHandleByID,
      resolveMeshPath_no_match lib j habs2]

set_option maxRecDepth 100000 in
/-- C7 witness: id 1 is absent from the concrete two-mesh file and id 6
has no ref in the one-ref library. -/
theorem c7_not_found_asymmetry_witness :
    ((∀ m ∈ (openStaticMeshFile (writeStaticMeshFile exMeshes exVerts exIndices)).meshes,
        m.id ≠ 1) ∧
      (∀ r ∈ exLib.assetRefs, ¬(r.assetID = 6 ∧ r.assetType = 0))) ∧
    ((openStaticMeshFile (writeStaticMeshFile exMeshes exVerts exIndices)).getMeshData 1
        = none ∧
      (openStaticMeshFile (writeStaticMeshFile exMeshes exVerts exIndices)).readMesh 1
        = none ∧
      libraryGetMeshData exFs exLib initialCacheState 6 = none ∧
      libraryReadMesh exFs exLib initialCacheState 6 = none) :=
  ⟨⟨by decide, by decide⟩,
    c7_not_found_asymmetry (openStaticMeshFile (writeStaticMeshFile exMeshes exVerts exIndices))
      1 (by decide) exFs exLib initialCacheState 6 (by decide)⟩

/-- C8: for an id absent from the record table, `readMesh` with explicit
caller buffers returns failure, writes nothing into either buffer, and
leaves the handle (header, record table, stream data and position)
unchanged. -/
theorem c8_readMesh_absent_writes_nothing (h : StaticMeshFileHandleBuffer) (i : Nat)
    (verts indices : List Nat) (habs : ∀ m ∈ h.meshes, m.id ≠ i) :
    h.readMeshBuf i verts indices = (false, verts, indices, h) := by
  have hnone : h.readMesh i = none := by
    simp only [StaticMeshFileHandleBuffer.readMesh, findLastMesh_eq_none h.meshes i habs]
  rw [StaticMeshFileHandleBuffer.readMeshBuf, hnone]

set_option maxRecDepth 100000 in
/-- C8 witness: reading absent id 1 from the concrete file with nonempty
buffers returns them untouched. -/
theorem c8_readMesh_absent_writes_nothing_witness :
    (∀ m ∈ (openStaticMeshFile (writeStaticMeshFile exMeshes exVerts exIndices)).meshes,
      m.id ≠ 1) ∧
    (openStaticMeshFile (writeStaticMeshFile exMeshes exVerts exIndices)).readMeshBuf 1
        [7, 8, 9] [4, 5] =
      (false, [7, 8, 9], [4, 5],
        openStaticMeshFile (writeStaticMeshFile exMeshes exVerts exIndices)) :=
  ⟨by decide,
    c8_readMesh_absent_writes_nothing
      (openStaticMeshFile (writeStaticMeshFile exMeshes exVerts exIndices)) 1
      [7, 8, 9] [4, 5] (by decide)⟩

/-- C9: an id with a matching mesh-type ref (nonempty resolved path) that
is absent from the record table of the file the path opens does not exit
the process: starting from an empty cache, the library-backed
`getMeshData` returns null and `readMesh` returns false. -/
theorem c9_missing_record_not_fatal (fs : List Nat → List Nat)
    (lib : LibraryFileHandleBuffer) (i : Nat) (p : List Nat)
    (hres : resolveMeshPath lib i = p) (hp : p ≠ [])
    (habs : ∀ m ∈ (openStaticMeshFile (fs p)).meshes, m.id ≠ i) :
    ∃ st', libraryGetMeshData fs lib initialCacheState i = some (none, st') ∧
      libraryReadMesh fs lib initialCacheState i = some (false, st') := by
  have hget : getStaticMeshFileHandleByID fs lib initialCacheState i =
      some (getStaticMeshFileHandleByPath fs initialCacheState p) := by
    simp [getStaticMeshFileHandleByID, hres, hp]
  have hpath : getStaticMeshFileHandleByPath fs initialCacheState p =
      (openStaticMeshFile (fs p),
        { staticMeshHandleCache := [(p, openStaticMeshFile (fs p))], openCount := 1 }) := by
    simp [getStaticMeshFileHandleByPath, cacheLookup, initialCacheState]
  refine ⟨{ staticMeshHandleCache := [(p, openStaticMeshFile (fs p))], openCount := 1 }, ?_, ?_⟩
  · simp [libraryGetMeshData, hget, hpath, StaticMeshFileHandleBuffer.getMeshData,
      findFirstMesh_eq_none _ i habs]
  · simp [libraryReadMesh, hget, hpath, StaticMeshFileHandleBuffer.readMesh,
      findLastMesh_eq_none _ i habs]

/-- C9 witness: id 5 resolves through the one-ref library to path "a",
whose (empty) mesh file has no record with id 5. -/
theorem c9_missing_record_not_fatal_witness :
    (resolveMeshPath exLib 5 = [97] ∧ ([97] : List Nat) ≠ [] ∧
      (∀ m ∈ (openStaticMeshFile (exFs [97])).meshes, m.id ≠ 5)) ∧
    (∃ st', libraryGetMeshData exFs exLib initialCacheState 5 = some (none, st') ∧
      libraryReadMesh exFs exLib initialCacheState 5 = some (false, st')) :=
  ⟨⟨by decide, by decide, by decide⟩,
    c9_missing_record_not_fatal exFs exLib 5 [97] (by decide) (by decide) (by decide)⟩

/-- C10 counterexample: in `exLibShadow` the ref at index 0 was added via
`addMeshRef 5 ""` (its stored path reads back empty), yet cache lookup by
its id 5 does not exit: a later ref with the same id shadows it, so the
claim that every empty-path ref makes lookup by its id fatal is false. -/
theorem c10_counterexample :
    exLibShadow.assetRefs = [⟨5, 0, 0⟩, ⟨5, 0, 1⟩] ∧
    cstrAt exLibShadow.pathData 0 = [] ∧
    resolveMeshPath exLibShadow 5 = [97] ∧
    libraryGetMeshData exFs exLibShadow initialCacheState 5 ≠ none := by
  decide

/-- C10 (amended): when the empty-path ref is the LAST matching mesh ref
for its id — in particular right after `addMeshRef id ""` — the resolved
path is empty and cache lookup by that id exits the process, exactly the
`none` outcome of an id with no ref at all. -/
theorem c10_empty_path_fatal (fs : List Nat → List Nat)
    (lib : LibraryFileHandleBuffer) (st : CacheState) (i : Nat) :
    resolveMeshPath (lib.addMeshRef i []) i = [] ∧
    libraryGetMeshData fs (lib.addMeshRef i []) st i = none ∧
    libraryReadMesh fs (lib.addMeshRef i []) st i = none := by
  have hres : resolveMeshPath (lib.addMeshRef i []) i = [] := by
    simp [resolveMeshPath, LibraryFileHandleBuffer.addMeshRef, List.foldl_append, cstrAt]
  exact ⟨hres, by simp [libraryGetMeshData, getStaticMeshFileHandleByID, hres],
    by simp [libraryReadMesh, getStaticMeshFileHandleByID, hres]⟩

/-! ## Library file round trip -/

/-- Every field of a library ref fits in 32 bits. -/
def wfLibraryAssetRef (r : LibraryAssetRef) : Prop :=
  r.assetID < 4294967296 ∧ r.assetType < 4294967296 ∧ r.pathOffset < 4294967296

instance (r : LibraryAssetRef) : Decidable (wfLibraryAssetRef r) := by
  unfold wfLibraryAssetRef; infer_instance

theorem length_serializeLibraryAssetRef (r : LibraryAssetRef) :
    (serializeLibraryAssetRef r).length = 12 := by
  simp [serializeLibraryAssetRef, u32bytes]

theorem parseLibraryAssetRef_serialize (r : LibraryAssetRef) (rest : List Nat)
    (hr : wfLibraryAssetRef r) :
    parseLibraryAssetRef (serializeLibraryAssetRef r ++ rest) = r := by
  simp only [wfLibraryAssetRef] at hr
  obtain ⟨h1, h2, h3⟩ := hr
  simp only [serializeLibraryAssetRef, List.append_assoc, parseLibraryAssetRef,
    drop_four_u32bytes_append,
    parseU32_u32bytes_append _ _ h1, parseU32_u32bytes_append _ _ h2,
    parseU32_u32bytes_append _ _ h3]

theorem parseRefs_flatMap (refs : List LibraryAssetRef) (rest : List Nat)
    (h : ∀ r ∈ refs, wfLibraryAssetRef r) :
    parseRefs refs.length (refs.flatMap serializeLibraryAssetRef ++ rest) = refs := by
  induction refs with
  | nil => rfl
  | cons r rs ih =>
    simp only [List.flatMap_cons, List.length_cons, parseRefs, List.append_assoc]
    rw [parseLibraryAssetRef_serialize r _ (h r (List.mem_cons_self r rs)),
      List.drop_left' (length_serializeLibraryAssetRef r),
      ih (fun x hx => h x (List.mem_cons_of_mem r hx))]

theorem takeD_self (l : List Nat) : l.takeD l.length 0 = l := by
  simpa using List.takeD_left l [] 0

/-- Writing a library index and reopening the bytes recovers the exact
ref table and path blob. -/
theorem openLibraryFile_write (lib : LibraryFileHandleBuffer)
    (hR : lib.assetRefs.length < 4294967296) (hP : lib.pathData.length < 4294967296)
    (hwf : ∀ r ∈ lib.assetRefs, wfLibraryAssetRef r) :
    openLibraryFile lib.write = some lib := by
  have hw1 : lib.write =
      LIBRARY_MAGIC_PADDED ++ (u32bytes lib.assetRefs.length ++ (u32bytes lib.pathData.length
        ++ (lib.assetRefs.flatMap serializeLibraryAssetRef ++ lib.pathData))) := by
    simp [LibraryFileHandleBuffer.write, List.append_assoc]
  have hpad32 : (LIBRARY_MAGIC_PADDED : List Nat).length = 32 := by decide
  have hempty : (lib.write).isEmpty = false := by rw [hw1]; rfl
  have htake32 : (lib.write).take 32 = LIBRARY_MAGIC_PADDED := by
    rw [hw1]; exact List.take_left' hpad32
  have hmagic : strncmpZero 32 LIBRARY_MAGIC_PADDED LIBRARY_MAGIC_CSTR = true := by decide
  have hdrop32 : (lib.write).drop 32 =
      u32bytes lib.assetRefs.length ++ (u32bytes lib.pathData.length
        ++ (lib.assetRefs.flatMap serializeLibraryAssetRef ++ lib.pathData)) := by
    rw [hw1]; exact List.drop_left' hpad32
  have hrc : parseU32 ((lib.write).drop 32) = lib.assetRefs.length := by
    rw [hdrop32]; exact parseU32_u32bytes_append _ _ hR
  have hw2 : lib.write =
      (LIBRARY_MAGIC_PADDED ++ u32bytes lib.assetRefs.length)
      ++ (u32bytes lib.pathData.length
        ++ (lib.assetRefs.flatMap serializeLibraryAssetRef ++ lib.pathData)) := by
    simp [LibraryFileHandleBuffer.write, List.append_assoc]
  have hlen36 : (LIBRARY_MAGIC_PADDED ++ u32bytes lib.assetRefs.length).length = 36 := by
    simp [List.length_append, length_u32bytes, hpad32]
  have hbc : parseU32 ((lib.write).drop 36) = lib.pathData.length := by
    rw [hw2, List.drop_left' hlen36]; exact parseU32_u32bytes_append _ _ hP
  have hw3 : lib.write =
      (LIBRARY_MAGIC_PADDED ++ u32bytes lib.assetRefs.length ++ u32bytes lib.pathData.length)
      ++ (lib.assetRefs.flatMap serializeLibraryAssetRef ++ lib.pathData) := by
    simp [LibraryFileHandleBuffer.write, List.append_assoc]
  have hlen40 : (LIBRARY_MAGIC_PADDED ++ u32bytes lib.assetRefs.length
      ++ u32bytes lib.pathData.length).length = 40 := by
    simp [List.length_append, length_u32bytes, hpad32]
  have hdrop40 : (lib.write).drop 40 =
      lib.assetRefs.flatMap serializeLibraryAssetRef ++ lib.pathData := by
    rw [hw3]; exact List.drop_left' hlen40
  have hrefs : parseRefs lib.assetRefs.length ((lib.write).drop 40) = lib.assetRefs := by
    rw [hdrop40]; exact parseRefs_flatMap lib.assetRefs lib.pathData hwf
  have hw4 : lib.write =
      ((LIBRARY_MAGIC_PADDED ++ u32bytes lib.assetRefs.length ++ u32bytes lib.pathData.length)
        ++ lib.assetRefs.flatMap serializeLibraryAssetRef) ++ lib.pathData := by
    simp [LibraryFileHandleBuffer.write, List.append_assoc]
  have hlenRB : ((LIBRARY_MAGIC_PADDED ++ u32bytes lib.assetRefs.length
      ++ u32bytes lib.pathData.length) ++ lib.assetRefs.flatMap serializeLibraryAssetRef).length
      = 40 + 12 * lib.assetRefs.length := by
    rw [List.length_append, hlen40,
      length_flatMap_uniform serializeLibraryAssetRef 12 length_serializeLibraryAssetRef]
    ring
  have hdropPD : (lib.write).drop (40 + 12 * lib.assetRefs.length) = lib.pathData := by
    rw [hw4]; exact List.drop_left' hlenRB
  simp [openLibraryFile, hempty, htake32, hmagic, hrc, hbc, hrefs, hdropPD, takeD_self]

/-! ## Building a library by a sequence of `addMeshRef` calls -/

/-- The claim's driver: the handle after a sequence of `addMeshRef(id,
path)` calls starting from `emptyLibraryFileHandle`. -/
def buildLibrary (pairs : List (Nat × List Nat)) : LibraryFileHandleBuffer :=
  pairs.foldl (fun h pr => h.addMeshRef pr.1 pr.2) emptyLibraryFileHandle

/-- The ref records `addMeshRef` lays down for `pairs` when the blob
already holds `base` bytes. -/
def refsFrom (base : Nat) : List (Nat × List Nat) → List LibraryAssetRef
  | [] => []
  | (i, p) :: rest => ⟨i, 0, base⟩ :: refsFrom (base + p.length + 1) rest

theorem length_refsFrom (pairs : List (Nat × List Nat)) :
    ∀ base, (refsFrom base pairs).length = pairs.length := by
  induction pairs with
  | nil => intro base; rfl
  | cons pr rest ih =>
    rcases pr with ⟨i, p⟩
    intro base
    simp [refsFrom, ih]

theorem addAll_closed (pairs : List (Nat × List Nat)) :
    ∀ (h : LibraryFileHandleBuffer),
    pairs.foldl (fun h pr => h.addMeshRef pr.1 pr.2) h =
      { assetRefs := h.assetRefs ++ refsFrom h.pathData.length pairs
        pathData := h.pathData ++ pairs.flatMap (fun pr => pr.2 ++ [0]) } := by
  induction pairs with
  | nil => intro h; simp [refsFrom]
  | cons pr rest ih =>
    rcases pr with ⟨i, p⟩
    intro h
    rw [List.foldl_cons, ih]
    have hb : (h.pathData ++ p ++ [0]).length = h.pathData.length + p.length + 1 := by
      simp [Nat.add_assoc]
    simp [LibraryFileHandleBuffer.addMeshRef, refsFrom, hb, List.append_assoc, Nat.add_assoc]

theorem buildLibrary_closed (pairs : List (Nat × List Nat)) :
    buildLibrary pairs =
      { assetRefs := refsFrom 0 pairs
        pathData := pairs.flatMap (fun pr => pr.2 ++ [0]) } := by
  have := addAll_closed pairs emptyLibraryFileHandle
  simpa [buildLibrary, emptyLibraryFileHandle] using this

theorem takeWhile_stops (path later : List Nat) (hz : ∀ b ∈ path, b ≠ 0) :
    (path ++ 0 :: later).takeWhile (fun b => b ≠ 0) = path := by
  induction path with
  | nil => simp [List.takeWhile_cons]
  | cons b bs ih =>
    have hb : b ≠ 0 := hz b (List.mem_cons_self b bs)
    rw [List.cons_append, List.takeWhile_cons, if_pos (by simp [hb]),
      ih (fun x hx => hz x (List.mem_cons_of_mem b hx))]

/-- Pairwise readback: every ref laid down by the builder reads its
original path back out of the blob, and the path is null-terminated in
place. -/
theorem refsFrom_readback (blob : List Nat) :
    ∀ (pairs : List (Nat × List Nat)) (base : Nat),
    blob.drop base = pairs.flatMap (fun pr => pr.2 ++ [0]) →
    (∀ pr ∈ pairs, ∀ b ∈ pr.2, b ≠ 0) →
    List.Forall₂ (fun (r : LibraryAssetRef) (pr : Nat × List Nat) =>
        r.assetID = pr.1 ∧ r.assetType = 0 ∧ cstrAt blob r.pathOffset = pr.2 ∧
        ∃ rest, blob.drop r.pathOffset = pr.2 ++ 0 :: rest)
      (refsFrom base pairs) pairs := by
  intro pairs
  induction pairs with
  | nil => intro base _ _; exact List.Forall₂.nil
  | cons pr rest ih =>
    rcases pr with ⟨i, p⟩
    intro base hdrop hz
    have hflat : blob.drop base = p ++ 0 :: rest.flatMap (fun pr => pr.2 ++ [0]) := by
      rw [hdrop]; simp [List.flatMap_cons]
    have hzp : ∀ b ∈ p, b ≠ 0 := hz (i, p) (List.mem_cons_self _ rest)
    refine List.Forall₂.cons ⟨rfl, rfl, ?_, ?_⟩ ?_
    · rw [cstrAt, hflat]
      exact takeWhile_stops p _ hzp
    · exact ⟨_, hflat⟩
    · refine ih (base + p.length + 1) ?_ (fun x hx => hz x (List.mem_cons_of_mem _ hx))
      have hsum : base + p.length + 1 = base + (p.length + 1) := by omega
      rw [hsum, ← List.drop_drop, hflat]
      have : (p.length + 1) = (p ++ [0]).length := by simp
      rw [show p ++ 0 :: rest.flatMap (fun pr => pr.2 ++ [0]) =
        (p ++ [0]) ++ rest.flatMap (fun pr => pr.2 ++ [0]) by simp, this, List.drop_left]

theorem refsFrom_wf (pairs : List (Nat × List Nat)) :
    ∀ base, (∀ pr ∈ pairs, pr.1 < 4294967296) →
    base + (pairs.flatMap (fun pr => pr.2 ++ [0])).length < 4294967296 →
    ∀ r ∈ refsFrom base pairs, wfLibraryAssetRef r := by
  induction pairs with
  | nil => intro base _ _ r hr; cases hr
  | cons pr rest ih =>
    rcases pr with ⟨i, p⟩
    intro base hid hoff r hr
    have hlen : (((i, p) :: rest).flatMap (fun pr => pr.2 ++ [0])).length =
        p.length + 1 + (rest.flatMap (fun pr => pr.2 ++ [0])).length := by
      simp [List.flatMap_cons]
      omega
    rw [hlen] at hoff
    rcases List.mem_cons.mp hr with rfl | hmem
    · refine ⟨hid (i, p) (List.mem_cons_self _ rest), ?_, ?_⟩
      · show (0 : Nat) < 4294967296
        omega
      · show base < 4294967296
        omega
    · exact ih (base + p.length + 1) (fun x hx => hid x (List.mem_cons_of_mem _ hx))
        (by omega) r hmem

/-- C4 (amended): for every sequence of `addMeshRef(id, path)` calls
whose paths contain no NUL byte (and whose sizes fit the 32-bit header
fields), writing the library and reopening the bytes yields the same
handle, and ref-by-ref in order: the same id, the mesh asset type, the
original path read back through the ref's `pathOffset`, null-terminated
within the blob. -/
theorem c4_library_roundtrip (pairs : List (Nat × List Nat))
    (hid : ∀ pr ∈ pairs, pr.1 < 4294967296)
    (hz : ∀ pr ∈ pairs, ∀ b ∈ pr.2, b ≠ 0)
    (hcnt : pairs.length < 4294967296)
    (hblob : (buildLibrary pairs).pathData.length < 4294967296) :
    openLibraryFile (buildLibrary pairs).write = some (buildLibrary pairs) ∧
    List.Forall₂ (fun (r : LibraryAssetRef) (pr : Nat × List Nat) =>
        r.assetID = pr.1 ∧ r.assetType = 0 ∧
        cstrAt (buildLibrary pairs).pathData r.pathOffset = pr.2 ∧
        ∃ rest, (buildLibrary pairs).pathData.drop r.pathOffset = pr.2 ++ 0 :: rest)
      (buildLibrary pairs).assetRefs pairs := by
  have hclosed := buildLibrary_closed pairs
  have hrefs : (buildLibrary pairs).assetRefs = refsFrom 0 pairs := by rw [hclosed]
  have hpd : (buildLibrary pairs).pathData = pairs.flatMap (fun pr => pr.2 ++ [0]) := by
    rw [hclosed]
  constructor
  · refine openLibraryFile_write (buildLibrary pairs) ?_ hblob ?_
    · rw [hrefs, length_refsFrom]
      exact hcnt
    · rw [hrefs]
      refine refsFrom_wf pairs 0 hid ?_
      rw [← hpd]
      simpa using hblob
  · rw [hrefs]
    refine refsFrom_readback (buildLibrary pairs).pathData pairs 0 ?_ hz
    rw [hpd]
    rfl

/-- C4 witness: two refs with paths "ab" and "c" round-trip through the
written bytes and read back exactly. -/
theorem c4_library_roundtrip_witness :
    ((∀ pr ∈ [((5 : Nat), [97, 98]), (6, [99])], pr.1 < 4294967296) ∧
      (∀ pr ∈ [((5 : Nat), [97, 98]), (6, [99])], ∀ b ∈ pr.2, b ≠ 0) ∧
      ([((5 : Nat), [97, 98]), (6, [99])].length < 4294967296) ∧
      (buildLibrary [(5, [97, 98]), (6, [99])]).pathData.length < 4294967296) ∧
    (openLibraryFile (buildLibrary [(5, [97, 98]), (6, [99])]).write
        = some (buildLibrary [(5, [97, 98]), (6, [99])]) ∧
      List.Forall₂ (fun (r : LibraryAssetRef) (pr : Nat × List Nat) =>
          r.assetID = pr.1 ∧ r.assetType = 0 ∧
          cstrAt (buildLibrary [(5, [97, 98]), (6, [99])]).pathData r.pathOffset = pr.2 ∧
          ∃ rest, (buildLibrary [(5, [97, 98]), (6, [99])]).pathData.drop r.pathOffset
            = pr.2 ++ 0 :: rest)
        (buildLibrary [(5, [97, 98]), (6, [99])]).assetRefs [(5, [97, 98]), (6, [99])]) :=
  ⟨⟨by decide, by decide, by decide, by decide⟩,
    c4_library_roundtrip [(5, [97, 98]), (6, [99])] (by decide) (by decide) (by decide)
      (by decide)⟩

/-- C4 counterexample: add the single pair `(1, "\x00")` — a one-byte
path consisting of a NUL.  The write/open round trip still reproduces the
handle, but the path read back through the ref's `pathOffset` is the
empty string, not the one-byte string that was added, refuting the claim
for arbitrary path strings. -/
theorem c4_counterexample :
    (buildLibrary [(1, [0])]).assetRefs = [⟨1, 0, 0⟩] ∧
    openLibraryFile (buildLibrary [(1, [0])]).write = some (buildLibrary [(1, [0])]) ∧
    cstrAt (buildLibrary [(1, [0])]).pathData 0 = [] ∧
    ([] : List Nat) ≠ [0] := by
  decide

/-! ## The magic-number comparison -/

/-- What `strncmp(a, expected, n)` actually decides when the expected
string is `pre ++ [0]` with no interior NUL bytes and the buffer is long
enough: equality of the first `pre.length + 1` bytes only. -/
theorem strncmpZero_eq_take (pre : List Nat) :
    ∀ (a : List Nat) (n : Nat), 0 ∉ pre → pre.length < n → pre.length + 1 ≤ a.length →
    (strncmpZero n a (pre ++ [0]) = true ↔ a.take (pre.length + 1) = pre ++ [0]) := by
  induction pre with
  | nil =>
    intro a n h0 hn ha
    obtain ⟨k, rfl⟩ : ∃ k, n = k + 1 := ⟨n - 1, by omega⟩
    rcases a with _ | ⟨a0, as⟩
    · simp at ha
    by_cases h : a0 = 0
    · simp [strncmpZero, h]
    · simp [strncmpZero, h]
  | cons p ps ih =>
    intro a n h0 hn ha
    obtain ⟨k, rfl⟩ : ∃ k, n = k + 1 := ⟨n - 1, by omega⟩
    rcases a with _ | ⟨a0, as⟩
    · simp at ha
    have hp : p ≠ 0 := fun h => h0 (by simp [h])
    by_cases he : a0 = p
    · subst he
      have hrec := ih as k (fun hmem => h0 (List.mem_cons_of_mem _ hmem))
        (by simp at hn ⊢; omega) (by simp at ha ⊢; omega)
      simp only [strncmpZero, List.cons_append, List.headD_cons, List.tail_cons]
      rw [if_neg (by simp), if_neg hp, hrec]
      simp [List.take_succ_cons, List.length_cons]
    · simp only [strncmpZero, List.cons_append, List.headD_cons]
      rw [if_pos (by simpa using he)]
      simp [List.take_succ_cons, he]

/-- LIBRARY_MAGIC has no interior NUL and is 18 bytes long. -/
theorem library_magic_shape : (0 ∉ LIBRARY_MAGIC) ∧ LIBRARY_MAGIC.length = 18 := by decide

/-- A corrupted library header: the magic field differs from the constant
at byte 20 (one of the padding positions past the terminator). -/
def exBadMagicFile : List Nat :=
  (LIBRARY_MAGIC_PADDED.set 20 77) ++ u32bytes 0 ++ u32bytes 0

/-- A 32-zero magic field, for the mesh-file half of C6's witness. -/
def exZeroMagic : List Nat :=
  [0, 0, 0, 0, 0, 0, 0, 0, 0, 0, 0, 0, 0, 0, 0, 0,
   0, 0, 0, 0, 0, 0, 0, 0, 0, 0, 0, 0, 0, 0, 0, 0]

/-- C6 counterexample: a library file whose 32-byte magic field differs
from the expected constant at position 20, yet `openLibraryFile` accepts
it and returns a handle — the comparison never reaches bytes past the
terminator of the expected constant, so not every magic mismatch is
fatal. -/
theorem c6_counterexample :
    exBadMagicFile.take 32 ≠ LIBRARY_MAGIC_PADDED ∧
    exBadMagicFile.getD 20 0 ≠ LIBRARY_MAGIC_PADDED.getD 20 0 ∧
    exBadMagicFile.length = 40 ∧
    openLibraryFile exBadMagicFile = some emptyLibraryFileHandle := by
  decide

/-- C6 (amended): `openLibraryFile` exits precisely when the first 19
bytes (the expected constant up to and including its NUL terminator)
differ from the constant — bytes 19..31 of the magic field are never
compared; an empty file (failed read, guard byte `0`) also exits; and
`openStaticMeshFile` performs no magic check at all: its header counts
and record table do not depend on the 32 magic bytes. -/
theorem c6_magic_check (file : List Nat) (hlen : 40 ≤ file.length)
    (m1 m2 rest : List Nat) (h1 : m1.length = 32) (h2 : m2.length = 32) :
    (openLibraryFile file = none ↔ file.take 19 ≠ LIBRARY_MAGIC_CSTR) ∧
    openLibraryFile [] = none ∧
    (openStaticMeshFile (m1 ++ rest)).header.meshCount
      = (openStaticMeshFile (m2 ++ rest)).header.meshCount ∧
    (openStaticMeshFile (m1 ++ rest)).header.vertexCount
      = (openStaticMeshFile (m2 ++ rest)).header.vertexCount ∧
    (openStaticMeshFile (m1 ++ rest)).header.indexCount
      = (openStaticMeshFile (m2 ++ rest)).header.indexCount ∧
    (openStaticMeshFile (m1 ++ rest)).meshes = (openStaticMeshFile (m2 ++ rest)).meshes := by
  have hne : file.isEmpty = false := by
    rcases file with _ | ⟨b, bs⟩
    · simp at hlen
    · rfl
  have htlen : 19 ≤ (file.take 32).length := by
    rw [List.length_take]
    omega
  have hcmp := strncmpZero_eq_take LIBRARY_MAGIC (file.take 32) 32
    library_magic_shape.1 (by rw [library_magic_shape.2]; omega)
    (by rw [library_magic_shape.2]; omega)
  rw [library_magic_shape.2] at hcmp
  have htt : (file.take 32).take 19 = file.take 19 := by
    rw [List.take_take]
    norm_num
  norm_num at hcmp
  rw [htt] at hcmp
  refine ⟨?_, rfl, ?_, ?_, ?_, ?_⟩
  · rw [openLibraryFile, hne]
    by_cases hc : strncmpZero 32 (file.take 32) (LIBRARY_MAGIC ++ [0]) = true
    · have := hcmp.mp hc
      simp only [Bool.false_eq_true, if_false, LIBRARY_MAGIC_CSTR]
      rw [if_pos hc]
      simp [this]
    · have hx : ¬(file.take 19 = LIBRARY_MAGIC ++ [0]) := fun h => hc (hcmp.mpr h)
      simp only [Bool.false_eq_true, if_false, LIBRARY_MAGIC_CSTR]
      rw [if_neg hc]
      simp [hx]
  all_goals {
    have e1 : (m1 ++ rest).take 44 = m1 ++ rest.take 12 := by
      rw [show (44 : Nat) = m1.length + 12 by omega, List.take_append]
    have e2 : (m2 ++ rest).take 44 = m2 ++ rest.take 12 := by
      rw [show (44 : Nat) = m2.length + 12 by omega, List.take_append]
    have e3 : (m1 ++ rest).drop 44 = rest.drop 12 := by
      rw [show (44 : Nat) = m1.length + 12 by omega, List.drop_append]
    have e4 : (m2 ++ rest).drop 44 = rest.drop 12 := by
      rw [show (44 : Nat) = m2.length + 12 by omega, List.drop_append]
    have e5 : (m1 ++ rest.take 12).drop 32 = rest.take 12 := List.drop_left' h1
    have e6 : (m2 ++ rest.take 12).drop 32 = rest.take 12 := List.drop_left' h2
    simp only [openStaticMeshFile, parseStaticMeshFileHeader, e1, e2, e3, e4, e5, e6]
  }

set_option maxRecDepth 100000 in
/-- C6 witness: an intact library header opens, a header corrupted in
byte 3 is rejected, and swapping a mesh file's magic for 32 zero bytes
leaves its parsed header and record table unchanged. -/
theorem c6_magic_check_witness :
    (40 ≤ (LIBRARY_MAGIC_PADDED ++ u32bytes 0 ++ u32bytes 0).length ∧
      STATIC_MESH_MAGIC.length = 32 ∧ exZeroMagic.length = 32) ∧
    ((openLibraryFile (LIBRARY_MAGIC_PADDED ++ u32bytes 0 ++ u32bytes 0) = none ↔
        (LIBRARY_MAGIC_PADDED ++ u32bytes 0 ++ u32bytes 0).take 19 ≠ LIBRARY_MAGIC_CSTR) ∧
      openLibraryFile [] = none ∧
      (openStaticMeshFile (STATIC_MESH_MAGIC ++ u32bytes 1 ++ u32bytes 0 ++ u32bytes 0)).header.meshCount
        = (openStaticMeshFile (exZeroMagic ++ u32bytes 1 ++ u32bytes 0 ++ u32bytes 0)).header.meshCount ∧
      (openStaticMeshFile (STATIC_MESH_MAGIC ++ u32bytes 1 ++ u32bytes 0 ++ u32bytes 0)).header.vertexCount
        = (openStaticMeshFile (exZeroMagic ++ u32bytes 1 ++ u32bytes 0 ++ u32bytes 0)).header.vertexCount ∧
      (openStaticMeshFile (STATIC_MESH_MAGIC ++ u32bytes 1 ++ u32bytes 0 ++ u32bytes 0)).header.indexCount
        = (openStaticMeshFile (exZeroMagic ++ u32bytes 1 ++ u32bytes 0 ++ u32bytes 0)).header.indexCount ∧
      (openStaticMeshFile (STATIC_MESH_MAGIC ++ u32bytes 1 ++ u32bytes 0 ++ u32bytes 0)).meshes
        = (openStaticMeshFile (exZeroMagic ++ u32bytes 1 ++ u32bytes 0 ++ u32bytes 0)).meshes) :=
  ⟨⟨by decide, by decide, by decide⟩, by
    have h := c6_magic_check (LIBRARY_MAGIC_PADDED ++ u32bytes 0 ++ u32bytes 0) (by decide)
      STATIC_MESH_MAGIC exZeroMagic (u32bytes 1 ++ u32bytes 0 ++ u32bytes 0)
      (by decide) (by decide)
    simpa [List.append_assoc] using h⟩

/-! ## The single-open guarantee of the handle cache -/

/-- Resolving a path already memoized returns the stored handle and
leaves the state untouched: no open happens. -/
theorem getByPath_mem (fs : List Nat → List Nat) (st : CacheState) (p : List Nat)
    (hmem : p ∈ cacheKeys st) :
    ∃ hdl, cacheLookup st.staticMeshHandleCache p = some hdl ∧
      getStaticMeshFileHandleByPath fs st p = (hdl, st) := by
  obtain ⟨e, he, hfst⟩ := List.mem_map.mp hmem
  have hsome : (st.staticMeshHandleCache.find? (fun x => decide (x.1 = p))).isSome := by
    rw [List.find?_isSome]
    exact ⟨e, he, by simp [hfst]⟩
  obtain ⟨q, hq⟩ := Option.isSome_iff_exists.mp hsome
  exact ⟨q.2, by simp [cacheLookup, hq],
    by simp [getStaticMeshFileHandleByPath, cacheLookup, hq]⟩

/-- Resolving a path not yet memoized opens its file, memoizes the handle
and counts one open. -/
theorem getByPath_not_mem (fs : List Nat → List Nat) (st : CacheState) (p : List Nat)
    (h : p ∉ cacheKeys st) :
    getStaticMeshFileHandleByPath fs st p =
      (openStaticMeshFile (fs p),
        { staticMeshHandleCache := st.staticMeshHandleCache ++ [(p, openStaticMeshFile (fs p))]
          openCount := st.openCount + 1 }) := by
  have hfind : st.staticMeshHandleCache.find? (fun x => decide (x.1 = p)) = none := by
    rw [List.find?_eq_none]
    intro e he hdec
    exact h (List.mem_map.mpr ⟨e, he, by simpa using hdec⟩)
  simp [getStaticMeshFileHandleByPath, cacheLookup, hfind]

/-- Record a path among the memoized keys, once. -/
def insertNew (ks : List (List Nat)) (p : List Nat) : List (List Nat) :=
  if p ∈ ks then ks else ks ++ [p]

theorem getByID_state (fs : List Nat → List Nat) (lib : LibraryFileHandleBuffer)
    (st : CacheState) (i : Nat) (hdl : StaticMeshFileHandleBuffer) (st' : CacheState)
    (h : getStaticMeshFileHandleByID fs lib st i = some (hdl, st')) :
    cacheKeys st' = insertNew (cacheKeys st) (resolveMeshPath lib i) ∧
    st'.openCount + (cacheKeys st).length = st.openCount + (cacheKeys st').length ∧
    (∀ e ∈ st'.staticMeshHandleCache, e ∈ st.staticMeshHandleCache ∨
      e = (resolveMeshPath lib i, openStaticMeshFile (fs (resolveMeshPath lib i)))) ∧
    ((cacheKeys st).Nodup → (cacheKeys st').Nodup) := by
  rw [getStaticMeshFileHandleByID] at h
  by_cases hp : resolveMeshPath lib i = []
  · simp [hp] at h
  · rw [if_neg hp] at h
    by_cases hmem : resolveMeshPath lib i ∈ cacheKeys st
    · obtain ⟨hdl0, _, heq⟩ := getByPath_mem fs st (resolveMeshPath lib i) hmem
      rw [heq] at h
      have hsnd := congrArg Prod.snd (Option.some.inj h)
      have hst : st = st' := hsnd
      subst hst
      exact ⟨by simp [insertNew, hmem], rfl, fun e he => Or.inl he, id⟩
    · rw [getByPath_not_mem fs st _ hmem] at h
      have hsnd := congrArg Prod.snd (Option.some.inj h)
      subst hsnd
      have hmem' : resolveMeshPath lib i ∉ List.map Prod.fst st.staticMeshHandleCache := hmem
      refine ⟨?_, ?_, ?_, ?_⟩
      · simp only [cacheKeys, List.map_append, List.map_cons, List.map_nil]
        rw [insertNew, if_neg hmem']
      · simp only [cacheKeys, List.length_append, List.length_map, List.length_cons,
          List.length_nil]
        omega
      · intro e he
        rcases List.mem_append.mp he with h1 | h1
        · exact Or.inl h1
        · exact Or.inr (by simpa using h1)
      · intro hnd
        simp only [cacheKeys, List.map_append, List.map_cons, List.map_nil]
        rw [List.nodup_append]
        refine ⟨hnd, List.nodup_singleton _, ?_⟩
        intro x hx hx'
        rw [List.mem_singleton] at hx'
        subst hx'
        exact hmem' hx

/-- Each successful cache step factors through the id-keyed handle
resolution, whatever the operation kind. -/
theorem step_factors (fs : List Nat → List Nat) (lib : LibraryFileHandleBuffer)
    (st : CacheState) (b : Bool) (i : Nat) (st1 : CacheState)
    (h : (if b then (libraryGetMeshData fs lib st i).map Prod.snd
          else (libraryReadMesh fs lib st i).map Prod.snd) = some st1) :
    ∃ hdl, getStaticMeshFileHandleByID fs lib st i = some (hdl, st1) := by
  cases hby : getStaticMeshFileHandleByID fs lib st i with
  | none => cases b <;> simp [libraryGetMeshData, libraryReadMesh, hby] at h
  | some pr =>
    rcases pr with ⟨hdl, stx⟩
    refine ⟨hdl, ?_⟩
    cases b <;> simp [libraryGetMeshData, libraryReadMesh, hby] at h <;> rw [h]

theorem runCache_state (fs : List Nat → List Nat) (lib : LibraryFileHandleBuffer) :
    ∀ (ops : List (Bool × Nat)) (st st' : CacheState),
    runCache fs lib ops st = some st' →
    cacheKeys st' = (ops.map (fun op => resolveMeshPath lib op.2)).foldl insertNew
      (cacheKeys st) ∧
    st'.openCount + (cacheKeys st).length = st.openCount + (cacheKeys st').length ∧
    ((∀ e ∈ st.staticMeshHandleCache, e.2 = openStaticMeshFile (fs e.1)) →
      ∀ e ∈ st'.staticMeshHandleCache, e.2 = openStaticMeshFile (fs e.1)) ∧
    ((cacheKeys st).Nodup → (cacheKeys st').Nodup) := by
  intro ops
  induction ops with
  | nil =>
    intro st st' h
    have : st = st' := Option.some.inj h
    subst this
    exact ⟨rfl, rfl, fun h => h, id⟩
  | cons op ops ih =>
    intro st st' h
    rw [runCache] at h
    cases hstep : (if op.1 then (libraryGetMeshData fs lib st op.2).map Prod.snd
        else (libraryReadMesh fs lib st op.2).map Prod.snd) with
    | none => rw [hstep] at h; cases h
    | some st1 =>
      rw [hstep] at h
      obtain ⟨hdl, hby⟩ := step_factors fs lib st op.1 op.2 st1 hstep
      obtain ⟨hk1, hc1, hh1, hn1⟩ := getByID_state fs lib st op.2 hdl st1 hby
      obtain ⟨hk2, hc2, hh2, hn2⟩ := ih st1 st' h
      refine ⟨?_, ?_, ?_, fun hnd => hn2 (hn1 hnd)⟩
      · rw [hk2, List.map_cons, List.foldl_cons, hk1]
      · -- compose the two count equations
        have hlen1 : (cacheKeys st1).length = (insertNew (cacheKeys st)
            (resolveMeshPath lib op.2)).length := by rw [hk1]
        omega
      · intro hinv e he
        refine hh2 ?_ e he
        intro e1 he1
        rcases hh1 e1 he1 with h1 | h1
        · exact hinv e1 h1
        · rw [h1]
theorem insertNew_toFinset (ks : List (List Nat)) (p : List Nat) :
    (insertNew ks p).toFinset = insert p ks.toFinset := by
  by_cases hm : p ∈ ks
  · rw [insertNew, if_pos hm, Finset.insert_eq_self.mpr (List.mem_toFinset.mpr hm)]
  · rw [insertNew, if_neg hm, List.toFinset_append]
    simp only [List.toFinset_cons, List.toFinset_nil, insert_emptyc_eq]
    rw [Finset.union_comm, Finset.insert_eq]

theorem foldl_insertNew_toFinset (ps : List (List Nat)) :
    ∀ ks, (ps.foldl insertNew ks).toFinset = ks.toFinset ∪ ps.toFinset := by
  induction ps with
  | nil => intro ks; simp
  | cons p ps ih =>
    intro ks
    rw [List.foldl_cons, ih, insertNew_toFinset, List.toFinset_cons,
      Finset.insert_union, Finset.union_insert]

theorem length_eq_card_of_nodup (l : List (List Nat)) (h : l.Nodup) :
    l.length = l.toFinset.card := (List.toFinset_card_of_nodup h).symm

/-- C5: any sequence of `getMeshData`/`readMesh` calls through the
library-backed cache, started from the empty cache, opens exactly one
handle per distinct resolved path: the open counter equals the number of
distinct paths, the memoized keys are duplicate-free, every memoized
handle is the one opened from its path's bytes, and resolving an already
memoized path again returns the memoized handle with the cache state
unchanged. -/
theorem c5_cache_single_open (fs : List Nat → List Nat) (lib : LibraryFileHandleBuffer)
    (ops : List (Bool × Nat)) (st' : CacheState)
    (hrun : runCache fs lib ops initialCacheState = some st') :
    (cacheKeys st').Nodup ∧
    st'.openCount = ((ops.map (fun op => resolveMeshPath lib op.2)).toFinset).card ∧
    (∀ e ∈ st'.staticMeshHandleCache, e.2 = openStaticMeshFile (fs e.1)) ∧
    (∀ p ∈ cacheKeys st', ∃ hdl, cacheLookup st'.staticMeshHandleCache p = some hdl ∧
      getStaticMeshFileHandleByPath fs st' p = (hdl, st')) := by
  obtain ⟨hkeys, hcount, hhandles, hnd⟩ :=
    runCache_state fs lib ops initialCacheState st' hrun
  have hnd0 : (cacheKeys initialCacheState).Nodup := by
    simp [initialCacheState, cacheKeys]
  have hnd' : (cacheKeys st').Nodup := hnd hnd0
  refine ⟨hnd', ?_, hhandles (by simp [initialCacheState]),
    fun p hp => getByPath_mem fs st' p hp⟩
  have h1 : st'.openCount = (cacheKeys st').length := by
    have h0 : (cacheKeys initialCacheState).length = 0 := rfl
    have h0c : initialCacheState.openCount = 0 := rfl
    omega
  rw [h1, length_eq_card_of_nodup _ hnd', hkeys, foldl_insertNew_toFinset]
  simp [initialCacheState, cacheKeys]

/-- The cache state after the C5 witness run: one memoized handle for
path "a" and one open counted. -/
def exCacheState : CacheState :=
  { staticMeshHandleCache := [([97], openStaticMeshFile (exFs [97]))], openCount := 1 }

set_option maxRecDepth 100000 in
/-- C5 witness: a getMeshData call and a readMesh call for the same id
through the one-ref library open a single handle: the counter ends at 1,
the single key "a" maps to the handle opened from its file, and looking
"a" up again returns it without changing the state. -/
theorem c5_cache_single_open_witness :
    (runCache exFs exLib [(true, 5), (false, 5)] initialCacheState = some exCacheState) ∧
    ((cacheKeys exCacheState).Nodup ∧
      exCacheState.openCount =
        (([(true, 5), (false, 5)].map
          (fun op : Bool × Nat => resolveMeshPath exLib op.2)).toFinset).card ∧
      (∀ e ∈ exCacheState.staticMeshHandleCache, e.2 = openStaticMeshFile (exFs e.1)) ∧
      (∀ p ∈ cacheKeys exCacheState, ∃ hdl,
        cacheLookup exCacheState.staticMeshHandleCache p = some hdl ∧
        getStaticMeshFileHandleByPath exFs exCacheState p = (hdl, exCacheState))) :=
  ⟨by decide,
    c5_cache_single_open exFs exLib [(true, 5), (false, 5)] exCacheState (by decide)⟩

end asset
